import Mathlib

/-! # base-server-account: the account client of the base-server SDK

A shallow embedding of `base-server-sdk/base-server-account/account.go` and of the
library functions it calls (`strconv`, `strings.Join`, `unicode/utf8`, `encoding/json`),
followed by the properties of the seven remote operations.

Conventions of the embedding

* a Go `string` or `[]byte` is the list of its bytes (`GoString`); a byte is a `Nat`
  below 256, and the functions treat a larger number as a byte that is not UTF-8;
* Go `int`, `int64`, `OpType` and `AccountStatus` are `Int` (no operation does arithmetic
  on them; the JSON decoder checks the 64-bit range where Go does, `int` being 64 bits);
* a slice is `Option (List α)`: `none` is the nil slice, `some []` the empty one;
* a pointer is an `Option`: `none` is nil;
* a `map[string]string` is the list of its entries in ascending key order;
* `encoding/json` is the one of Go 1.22: `json.Marshal` escapes HTML characters and
  writes the short escapes for backspace and form feed; `json.Unmarshal` first checks
  the syntax of the whole input, then stores the values, and `none` stands for any
  error it returns;
* the shared client `base_server_sdk.Instance`, its error constants and its transport
  are the fields of `Client`; an operation returns an `Outcome` holding, besides
  the Go return values, the transport calls and the `common.ErrorLog` records it made.
-/

namespace BaseServerAccount

/-! ## Strings and numbers -/

/-- A Go string: its bytes. -/
abbrev GoString := List Nat

/-- A Go slice: `none` is nil. -/
abbrev Slice (α : Type) := Option (List α)

/-- Go `len` on a slice. -/
def len {α : Type} : Slice α → Nat
  | none => 0
  | some l => l.length

/-- The bytes of a string literal of the source (all of them are ASCII). -/
def lit (s : String) : GoString := s.toList.map Char.toNat

/-- Digits of `n` in base 10 prepended to `acc`, most significant first
(`strconv.formatBits`); `fuel` bounds the number of digits. -/
def formatBits : Nat → Nat → List Nat → List Nat
  | 0, _, acc => acc
  | fuel + 1, n, acc =>
    if n < 10 then (0x30 + n) :: acc
    else formatBits fuel (n / 10) ((0x30 + n % 10) :: acc)

/-- Go `strconv.FormatUint(n, 10)`. -/
def FormatUint (n : Nat) : GoString := formatBits (n + 1) n []

/-- Go `strconv.FormatInt(i, 10)`. -/
def FormatInt (i : Int) : GoString :=
  if i < 0 then 0x2D :: FormatUint i.natAbs else FormatUint i.natAbs

/-- Go `strconv.Itoa`. -/
def Itoa (i : Int) : GoString := FormatInt i

/-- Value of a string of decimal digits read after the value `acc`; `none` when a byte
is not a digit. -/
def parseDigits : Nat → List Nat → Option Nat
  | acc, [] => some acc
  | acc, c :: t =>
    if 0x30 ≤ c ∧ c ≤ 0x39 then parseDigits (acc * 10 + (c - 0x30)) t else none

/-- Go `strconv.ParseUint(s, 10, 64)` without the range check. -/
def ParseUint (s : GoString) : Option Nat :=
  match s with
  | [] => none
  | _ :: _ => parseDigits 0 s

/-- Go `strconv.ParseInt(s, 10, 64)`; `none` stands for a syntax or range error. -/
def ParseInt (s : GoString) : Option Int :=
  match s with
  | 0x2D :: ds =>
    match ParseUint ds with
    | some n => if n ≤ 2 ^ 63 then some (-(n : Int)) else none
    | none => none
  | 0x2B :: ds =>
    match ParseUint ds with
    | some n => if n < 2 ^ 63 then some (n : Int) else none
    | none => none
  | ds =>
    match ParseUint ds with
    | some n => if n < 2 ^ 63 then some (n : Int) else none
    | none => none

/-- The values of a Go `int64` (and of `int` on a 64-bit platform). -/
def InRange64 (i : Int) : Prop := -(2 ^ 63 : Int) ≤ i ∧ i < (2 ^ 63 : Int)

instance (i : Int) : Decidable (InRange64 i) := by
  unfold InRange64; exact inferInstance

/-- Go `strings.Join` on the elements of a slice. -/
def joinList (sep : GoString) : List GoString → GoString
  | [] => []
  | [a] => a
  | a :: b :: t => a ++ sep ++ joinList sep (b :: t)

/-- Go `strings.Join(elems, sep)`. -/
def Join (elems : Slice GoString) (sep : GoString) : GoString :=
  match elems with
  | none => []
  | some l => joinList sep l

/-- Lexicographic byte order of Go strings (`<` on `string`). -/
def bytesLt : GoString → GoString → Bool
  | _, [] => false
  | [], _ :: _ => true
  | a :: s, b :: t => decide (a < b) || (decide (a = b) && bytesLt s t)

/-! ## `map[string]string` -/

/-- A Go `map[string]string` that is not nil: its entries in ascending key order. -/
abbrev Entries := List (GoString × GoString)

/-- Go `m[k] = v`. -/
def Entries.set (k v : GoString) : Entries → Entries
  | [] => [(k, v)]
  | (k1, v1) :: m =>
    if k = k1 then (k, v) :: m
    else if bytesLt k k1 then (k, v) :: (k1, v1) :: m
    else (k1, v1) :: Entries.set k v m

/-- Go `m[k]` with its presence flag. -/
def Entries.get (k : GoString) (m : Entries) : Option GoString := List.lookup k m

/-- The keys are strictly ascending: the list represents a map. -/
def Entries.Sorted (m : Entries) : Prop :=
  List.Pairwise (fun a b => bytesLt a.1 b.1 = true) m

instance (m : Entries) : Decidable (Entries.Sorted m) := by
  unfold Entries.Sorted; exact inferInstance

/-- The parameter map `map[string]string` sent with a request. -/
abbrev Params := Entries

/-! ## `unicode/utf8` -/

/-- Go `utf8.RuneError`, U+FFFD. -/
def RuneError : Nat := 0xFFFD

/-- Go `utf8.DecodeRune`: the first rune of `p` and its width in bytes; an invalid or
short encoding gives `(RuneError, 1)`, the empty input `(RuneError, 0)`.
`b % 64` is `b & 0x3F`, `p0 % 32`, `p0 % 16`, `p0 % 8` are the masks of the lead byte
and the products are the shifts. -/
def DecodeRune : List Nat → Nat × Nat
  | [] => (RuneError, 0)
  | p0 :: t =>
    if p0 < 0x80 then (p0, 1)
    else if p0 < 0xC2 then (RuneError, 1)
    else if p0 < 0xE0 then
      match t with
      | b1 :: _ =>
        if 0x80 ≤ b1 ∧ b1 ≤ 0xBF then (p0 % 32 * 64 + b1 % 64, 2) else (RuneError, 1)
      | [] => (RuneError, 1)
    else if p0 < 0xF0 then
      match t with
      | b1 :: b2 :: _ =>
        if (if p0 = 0xE0 then 0xA0 else 0x80) ≤ b1 ∧ b1 ≤ (if p0 = 0xED then 0x9F else 0xBF)
            ∧ 0x80 ≤ b2 ∧ b2 ≤ 0xBF then
          (p0 % 16 * 4096 + b1 % 64 * 64 + b2 % 64, 3)
        else (RuneError, 1)
      | _ => (RuneError, 1)
    else if p0 < 0xF5 then
      match t with
      | b1 :: b2 :: b3 :: _ =>
        if (if p0 = 0xF0 then 0x90 else 0x80) ≤ b1 ∧ b1 ≤ (if p0 = 0xF4 then 0x8F else 0xBF)
            ∧ 0x80 ≤ b2 ∧ b2 ≤ 0xBF ∧ 0x80 ≤ b3 ∧ b3 ≤ 0xBF then
          (p0 % 8 * 262144 + b1 % 64 * 4096 + b2 % 64 * 64 + b3 % 64, 4)
        else (RuneError, 1)
      | _ => (RuneError, 1)
    else (RuneError, 1)

/-- Go `utf8.AppendRune(nil, r)`: the UTF-8 encoding of `r`; a surrogate or a value
above U+10FFFF is encoded as U+FFFD. -/
def EncodeRune (r : Nat) : List Nat :=
  if r ≤ 0x7F then [r]
  else if r ≤ 0x7FF then [0xC0 + r / 64, 0x80 + r % 64]
  else if 0x10FFFF < r ∨ (0xD800 ≤ r ∧ r ≤ 0xDFFF) then [0xEF, 0xBF, 0xBD]
  else if r ≤ 0xFFFF then [0xE0 + r / 4096, 0x80 + r / 64 % 64, 0x80 + r % 64]
  else [0xF0 + r / 262144, 0x80 + r / 4096 % 64, 0x80 + r / 64 % 64, 0x80 + r % 64]

/-- Loop of `utf8.ValidString`. -/
def validLoop : Nat → List Nat → Bool
  | 0, s => decide (s = [])
  | _ + 1, [] => true
  | fuel + 1, b :: t =>
    if b < 0x80 then validLoop fuel t
    else
      let d := DecodeRune (b :: t)
      if d.2 = 1 then false else validLoop fuel (t.drop (d.2 - 1))

/-- Go `utf8.ValidString`. -/
def ValidString (s : GoString) : Bool := validLoop s.length s

/-- Coerces a string to valid UTF-8, every invalid byte becoming U+FFFD: what a string
becomes on its way through `json.Marshal` and `json.Unmarshal`. -/
def coerceLoop : Nat → List Nat → List Nat
  | 0, _ => []
  | _ + 1, [] => []
  | fuel + 1, b :: t =>
    if b < 0x80 then b :: coerceLoop fuel t
    else
      let d := DecodeRune (b :: t)
      EncodeRune d.1 ++ coerceLoop fuel (t.drop (d.2 - 1))

/-- The string with every invalid byte replaced by U+FFFD. -/
def toValidUTF8 (s : GoString) : GoString := coerceLoop s.length s

/-! ## `encoding/json`: encoding -/

/-- Go `htmlSafeSet`: the ASCII bytes `json.Marshal` copies unescaped. -/
def htmlSafe (b : Nat) : Bool :=
  decide (0x20 ≤ b ∧ b < 0x80 ∧ b ≠ 0x22 ∧ b ≠ 0x26 ∧ b ≠ 0x3C ∧ b ≠ 0x3E
    ∧ b ≠ 0x5C)

/-- One digit of Go `hex = "0123456789abcdef"`. -/
def hexDigit (n : Nat) : Nat := if n < 10 then 0x30 + n else 0x57 + n

/-- The escape `appendString` writes for an ASCII byte outside `htmlSafeSet`. -/
def escapeByte (b : Nat) : List Nat :=
  if b = 0x5C ∨ b = 0x22 then [0x5C, b]
  else if b = 0x08 then [0x5C, 0x62]
  else if b = 0x0C then [0x5C, 0x66]
  else if b = 0x0A then [0x5C, 0x6E]
  else if b = 0x0D then [0x5C, 0x72]
  else if b = 0x09 then [0x5C, 0x74]
  else [0x5C, 0x75, 0x30, 0x30, hexDigit (b / 16), hexDigit (b % 16)]

/-- The loop of `appendString` (with `escapeHTML`): safe ASCII and valid runes are
copied, other ASCII is escaped, an invalid byte becomes the escape of U+FFFD, and
U+2028 and U+2029 are escaped. `fuel` bounds the iterations; each consumes at least one byte. -/
def appendStringLoop : Nat → GoString → List Nat
  | 0, _ => []
  | _ + 1, [] => []
  | fuel + 1, b :: t =>
    if b < 0x80 then
      if htmlSafe b then b :: appendStringLoop fuel t
      else escapeByte b ++ appendStringLoop fuel t
    else
      let d := DecodeRune (b :: t)
      if d.1 = RuneError ∧ d.2 = 1 then
        [0x5C, 0x75, 0x66, 0x66, 0x66, 0x64] ++ appendStringLoop fuel t
      else if d.1 = 0x2028 ∨ d.1 = 0x2029 then
        [0x5C, 0x75, 0x32, 0x30, 0x32, hexDigit (d.1 % 16)]
          ++ appendStringLoop fuel (t.drop (d.2 - 1))
      else (b :: t).take d.2 ++ appendStringLoop fuel (t.drop (d.2 - 1))

/-- Go `appendString(nil, src, true)`: the JSON string literal for `src`. -/
def appendString (src : GoString) : List Nat :=
  0x22 :: appendStringLoop src.length src ++ [0x22]

/-- The encoded items after the first, each preceded by a comma. -/
def commaTail : List (List Nat) → List Nat
  | [] => []
  | x :: xs => 0x2C :: x ++ commaTail xs

/-- The encoded items separated by commas. -/
def commaSep : List (List Nat) → List Nat
  | [] => []
  | x :: xs => x ++ commaTail xs

/-- A JSON array text from its encoded elements. -/
def encodeArray (elems : List (List Nat)) : List Nat :=
  0x5B :: commaSep elems ++ [0x5D]

/-- One member of an object: the quoted name, a colon, the encoded value. -/
def encodeMember (m : GoString × List Nat) : List Nat :=
  appendString m.1 ++ 0x3A :: m.2

/-- A JSON object text from its names and encoded values. -/
def encodeObject (members : List (GoString × List Nat)) : List Nat :=
  0x7B :: commaSep (members.map encodeMember) ++ [0x7D]

/-- The encoding of an integer field. -/
def encodeInt (i : Int) : List Nat := FormatInt i

/-- The encoding of a pointer: `null` when nil. -/
def encodePtr {α : Type} (enc : α → List Nat) : Option α → List Nat
  | none => lit "null"
  | some a => enc a

/-- The encoding of a slice: `null` when nil. -/
def encodeSlice {α : Type} (enc : α → List Nat) : Slice α → List Nat
  | none => lit "null"
  | some l => encodeArray (l.map enc)

/-- The encoding of a `map[string]string`: `null` when nil, else the entries in
ascending key order. -/
def encodeMap : Option Entries → List Nat
  | none => lit "null"
  | some m => encodeObject (m.map fun e => (e.1, appendString e.2))

/-! ## The data model -/

/-- Constant `OP_TYPE_AVAIL_ADD` of the source. -/
def OP_TYPE_AVAIL_ADD : Int := 1

/-- Constant `OP_TYPE_AVAIL_SUB` of the source. -/
def OP_TYPE_AVAIL_SUB : Int := 2

/-- Constant `OP_TYPE_FREEZE_ADD` of the source. -/
def OP_TYPE_FREEZE_ADD : Int := 3

/-- Constant `OP_TYPE_FREEZE_SUB` of the source. -/
def OP_TYPE_FREEZE_SUB : Int := 4

/-- Constant `OP_TYPE_UN_FREEZE` of the source. -/
def OP_TYPE_UN_FREEZE : Int := 5

/-- Constant `ACCOUNT_STATUS_NORMAL` of the source. -/
def ACCOUNT_STATUS_NORMAL : Int := 1

/-- Constant `ACCOUNT_STATUS_FREEZE` of the source. -/
def ACCOUNT_STATUS_FREEZE : Int := 2

/-- Type `Account` of the source. -/
structure Account where
  AccountId : Int
  OrgId : Int
  UserId : Int
  Currency : GoString
  AvailAmount : GoString
  FreezeAmount : GoString
  Status : Int
  CreateTime : Int
  UpdateTime : Int
  deriving DecidableEq

/-- Type `LogList` of the source. -/
structure LogList where
  LogId : Int
  UserId : Int
  Currency : GoString
  LogType : Int
  Amount : GoString
  CreateTime : Int
  deriving DecidableEq

/-- Type `TaskDetail` of the source. -/
structure TaskDetail where
  OpType : Int
  BsType : Int
  AccountId : Int
  UserId : Int
  Currency : GoString
  AllowNegative : Int
  Amount : GoString
  Detail : GoString
  Ext : GoString
  deriving DecidableEq

/-- Type `TaskCallBack` of the source. -/
structure TaskCallBack where
  CallBackUrl : GoString
  Data : Option Entries
  deriving DecidableEq

/-- The object `json.Marshal` writes for a `TaskDetail`: the fields in declaration
order under their `json` tags. -/
def encodeTaskDetail (d : TaskDetail) : List Nat :=
  encodeObject
    [(lit "opType", encodeInt d.OpType), (lit "bsType", encodeInt d.BsType),
     (lit "accountId", encodeInt d.AccountId), (lit "userId", encodeInt d.UserId),
     (lit "currency", appendString d.Currency),
     (lit "allowNegative", encodeInt d.AllowNegative),
     (lit "amount", appendString d.Amount), (lit "detail", appendString d.Detail),
     (lit "ext", appendString d.Ext)]

/-- The object `json.Marshal` writes for a `TaskCallBack`. -/
def encodeTaskCallBack (c : TaskCallBack) : List Nat :=
  encodeObject [(lit "callBackUrl", appendString c.CallBackUrl), (lit "data", encodeMap c.Data)]

/-- Go `json.Marshal` on a `[]int64`. -/
def marshalInt64s (s : Slice Int) : GoString := encodeSlice encodeInt s

/-- Go `json.Marshal` on a `[]*TaskDetail`. -/
def marshalTaskDetails (s : Slice (Option TaskDetail)) : GoString :=
  encodeSlice (encodePtr encodeTaskDetail) s

/-- Go `json.Marshal` on a `*TaskCallBack`. -/
def marshalTaskCallBack (c : Option TaskCallBack) : GoString :=
  encodePtr encodeTaskCallBack c

/-! ## `encoding/json`: decoding -/

/-- A JSON text as the scanner of `encoding/json` delimits it. A number keeps its
literal, a string is unquoted, an object keeps its members in order. -/
inductive JSON where
  | null
  | bool (b : Bool)
  | num (text : GoString)
  | str (s : GoString)
  | arr (elems : List JSON)
  | obj (members : List (GoString × JSON))

/-- Go `isSpace` of the scanner. -/
def isSpace (c : Nat) : Bool := decide (c = 0x20 ∨ c = 0x09 ∨ c = 0x0D ∨ c = 0x0A)

/-- Skips the white space before a token. -/
def skipWS : List Nat → List Nat
  | [] => []
  | c :: t => if isSpace c then skipWS t else c :: t

/-- Value of a hexadecimal digit. -/
def hexVal (c : Nat) : Option Nat :=
  if 0x30 ≤ c ∧ c ≤ 0x39 then some (c - 0x30)
  else if 0x61 ≤ c ∧ c ≤ 0x66 then some (c - 0x61 + 10)
  else if 0x41 ≤ c ∧ c ≤ 0x46 then some (c - 0x41 + 10)
  else none

/-- Go `getu4`: the value of a leading `\uXXXX`, `none` (Go: -1) when there is none. -/
def getu4 : List Nat → Option Nat
  | 0x5C :: 0x75 :: a :: b :: c :: d :: _ =>
    match hexVal a, hexVal b, hexVal c, hexVal d with
    | some x, some y, some z, some w => some (((x * 16 + y) * 16 + z) * 16 + w)
    | _, _, _, _ => none
  | _ => none

/-- Go `utf16.DecodeRune` on a first unit and the value `getu4` found after it. -/
def utf16DecodeRune (r1 : Nat) (r2 : Option Nat) : Nat :=
  match r2 with
  | some r2 =>
    if 0xD800 ≤ r1 ∧ r1 < 0xDC00 ∧ 0xDC00 ≤ r2 ∧ r2 < 0xE000 then
      (r1 - 0xD800) * 1024 + (r2 - 0xDC00) + 0x10000
    else RuneError
  | none => RuneError

/-- The byte a two-character escape stands for. -/
def simpleEscape (e : Nat) : Option Nat :=
  if e = 0x22 ∨ e = 0x5C ∨ e = 0x2F then some e
  else if e = 0x62 then some 0x08
  else if e = 0x66 then some 0x0C
  else if e = 0x6E then some 0x0A
  else if e = 0x72 then some 0x0D
  else if e = 0x74 then some 0x09
  else none

/-- Puts `pre` before the string of a result. -/
def prepend (pre : List Nat) : Option (GoString × List Nat) → Option (GoString × List Nat)
  | none => none
  | some (s, rest) => some (pre ++ s, rest)

/-- The scanner's string states together with `unquote`: reads a string literal whose
opening quote is consumed and returns the string it denotes and the input after the
closing quote. A control byte, a bad escape or a missing closing quote is an error;
an invalid byte becomes U+FFFD. `fuel` bounds the iterations; each consumes at least
one byte. -/
def unquoteLoop : Nat → List Nat → Option (GoString × List Nat)
  | 0, _ => none
  | _ + 1, [] => none
  | fuel + 1, c :: t =>
    if c = 0x22 then some ([], t)
    else if c = 0x5C then
      match t with
      | [] => none
      | e :: t1 =>
        if e = 0x75 then
          match getu4 (c :: t) with
          | none => none
          | some rr =>
            if 0xD800 ≤ rr ∧ rr < 0xE000 then
              let dec := utf16DecodeRune rr (getu4 (t.drop 5))
              if dec ≠ RuneError then prepend (EncodeRune dec) (unquoteLoop fuel (t.drop 11))
              else prepend (EncodeRune RuneError) (unquoteLoop fuel (t.drop 5))
            else prepend (EncodeRune rr) (unquoteLoop fuel (t.drop 5))
        else
          match simpleEscape e with
          | none => none
          | some b => prepend [b] (unquoteLoop fuel t1)
    else if c < 0x20 then none
    else if c < 0x80 then prepend [c] (unquoteLoop fuel t)
    else
      let d := DecodeRune (c :: t)
      prepend (EncodeRune d.1) (unquoteLoop fuel (t.drop (d.2 - 1)))

/-- Reads a string literal after its opening quote. -/
def unquote (inp : List Nat) : Option (GoString × List Nat) := unquoteLoop inp.length inp

/-- The longest prefix of decimal digits and the input after it. -/
def takeDigits : List Nat → List Nat × List Nat
  | [] => ([], [])
  | c :: t =>
    if 0x30 ≤ c ∧ c ≤ 0x39 then ((takeDigits t).1.cons c, (takeDigits t).2) else ([], c :: t)

/-- Integer part of a number: `0`, or a non-zero digit and more digits. -/
def scanInt : List Nat → Option (List Nat × List Nat)
  | [] => none
  | c :: t =>
    if c = 0x30 then some ([c], t)
    else if 0x31 ≤ c ∧ c ≤ 0x39 then some (c :: (takeDigits t).1, (takeDigits t).2)
    else none

/-- Optional fraction of a number: a dot and at least one digit. -/
def scanFrac : List Nat → Option (List Nat × List Nat)
  | 0x2E :: t =>
    match takeDigits t with
    | ([], _) => none
    | (ds, r) => some (0x2E :: ds, r)
  | inp => some ([], inp)

/-- Optional exponent of a number: `e` or `E`, an optional sign, at least one digit. -/
def scanExp : List Nat → Option (List Nat × List Nat)
  | [] => some ([], [])
  | c :: t =>
    if c = 0x65 ∨ c = 0x45 then
      match t with
      | s :: t1 =>
        if s = 0x2B ∨ s = 0x2D then
          match takeDigits t1 with
          | ([], _) => none
          | (ds, r) => some (c :: s :: ds, r)
        else
          match takeDigits t with
          | ([], _) => none
          | (ds, r) => some (c :: ds, r)
      | [] => none
    else some ([], c :: t)

/-- A number literal (the scanner's number states): the literal and the input after. -/
def scanNumber (inp : List Nat) : Option (GoString × List Nat) :=
  let sign : List Nat × List Nat :=
    match inp with
    | 0x2D :: t => ([0x2D], t)
    | _ => ([], inp)
  match scanInt sign.2 with
  | none => none
  | some (ip, r1) =>
    match scanFrac r1 with
    | none => none
    | some (fp, r2) =>
      match scanExp r2 with
      | none => none
      | some (ep, r3) => some (sign.1 ++ ip ++ fp ++ ep, r3)

/-- A value that is not an array or an object: a string, a number or a literal name. -/
def parseScalar : List Nat → Option (JSON × List Nat)
  | 0x22 :: t =>
    match unquote t with
    | none => none
    | some (s, r) => some (JSON.str s, r)
  | 0x74 :: 0x72 :: 0x75 :: 0x65 :: r => some (JSON.bool true, r)
  | 0x66 :: 0x61 :: 0x6C :: 0x73 :: 0x65 :: r => some (JSON.bool false, r)
  | 0x6E :: 0x75 :: 0x6C :: 0x6C :: r => some (JSON.null, r)
  | inp =>
    match scanNumber inp with
    | none => none
    | some (text, r) => some (JSON.num text, r)

/-- The elements of an array after the opening bracket, up to the closing one; `pv`
reads one value. `fuel` bounds the number of elements. -/
def parseElems (pv : List Nat → Option (JSON × List Nat)) :
    Nat → List Nat → Option (List JSON × List Nat)
  | 0, _ => none
  | fuel + 1, inp =>
    match pv inp with
    | none => none
    | some (v, r) =>
      match skipWS r with
      | 0x2C :: r1 =>
        match parseElems pv fuel r1 with
        | none => none
        | some (vs, r2) => some (v :: vs, r2)
      | 0x5D :: r1 => some ([v], r1)
      | _ => none

/-- The members of an object after the opening brace, up to the closing one; `pv`
reads one value. `fuel` bounds the number of members. -/
def parseMembers (pv : List Nat → Option (JSON × List Nat)) :
    Nat → List Nat → Option (List (GoString × JSON) × List Nat)
  | 0, _ => none
  | fuel + 1, inp =>
    match skipWS inp with
    | 0x22 :: r =>
      match unquote r with
      | none => none
      | some (k, r1) =>
        match skipWS r1 with
        | 0x3A :: r2 =>
          match pv r2 with
          | none => none
          | some (v, r3) =>
            match skipWS r3 with
            | 0x2C :: r4 =>
              match parseMembers pv fuel r4 with
              | none => none
              | some (ms, r5) => some ((k, v) :: ms, r5)
            | 0x7D :: r4 => some ([(k, v)], r4)
            | _ => none
        | _ => none
    | _ => none

/-- Reads one JSON value, white space before it included. The first argument is the
number of array and object levels still allowed. -/
def parseValue : Nat → List Nat → Option (JSON × List Nat)
  | 0, inp => parseScalar (skipWS inp)
  | depth + 1, inp =>
    match skipWS inp with
    | 0x5B :: r =>
      match skipWS r with
      | 0x5D :: r1 => some (JSON.arr [], r1)
      | _ =>
        match parseElems (parseValue depth) r.length r with
        | none => none
        | some (vs, r1) => some (JSON.arr vs, r1)
    | 0x7B :: r =>
      match skipWS r with
      | 0x7D :: r1 => some (JSON.obj [], r1)
      | _ =>
        match parseMembers (parseValue depth) r.length r with
        | none => none
        | some (ms, r1) => some (JSON.obj ms, r1)
    | other => parseScalar other

/-- Go `maxNestingDepth` of the scanner. -/
def maxNestingDepth : Nat := 10000

/-- The syntax check of `json.Unmarshal` (Go `checkValid`) with the value it
delimits: one JSON value, white space around it, nothing else. -/
def parseJSON (data : List Nat) : Option JSON :=
  match parseValue maxNestingDepth data with
  | none => none
  | some (v, rest) => if skipWS rest = [] then some v else none

/-- Go `json.Valid`. -/
def Valid (data : List Nat) : Bool := (parseJSON data).isSome

/-! ## `encoding/json`: storing a value into a Go variable

`none` stands for the error `json.Unmarshal` returns (an `UnmarshalTypeError`). -/

/-- Stores a JSON value into an `int` or `int64` that holds `old`: `null` leaves it,
a number must be an integer literal in range. -/
def storeInt (j : JSON) (old : Int) : Option Int :=
  match j with
  | JSON.null => some old
  | JSON.num text => ParseInt text
  | _ => none

/-- Stores a JSON value into a `string` that holds `old`. -/
def storeString (j : JSON) (old : GoString) : Option GoString :=
  match j with
  | JSON.null => some old
  | JSON.str s => some s
  | _ => none

/-- Stores the members of an object into the map `m`, each value into a fresh
`string`. -/
def storeEntries : List (GoString × JSON) → Entries → Option Entries
  | [], m => some m
  | (k, v) :: ms, m =>
    match storeString v [] with
    | none => none
    | some s => storeEntries ms (m.set k s)

/-- Stores a JSON value into a `map[string]string` that holds `old`: `null` makes it
nil, an object adds its members to the map, allocated when nil. -/
def storeMap (j : JSON) (old : Option Entries) : Option (Option Entries) :=
  match j with
  | JSON.null => some none
  | JSON.obj ms =>
    match storeEntries ms (old.getD []) with
    | none => none
    | some m => some (some m)
  | _ => none

/-- A struct field the decoder can fill: its `json` name and its store function. -/
structure Field (T : Type) where
  name : GoString
  store : T → JSON → Option T

/-- Go `foldName` as far as it decides equality with an ASCII name: ASCII letters
in upper case, U+017F as `S`, U+212A as `K`. -/
def foldName : List Nat → List Nat
  | [] => []
  | 0xC5 :: 0xBF :: t => 0x53 :: foldName t
  | 0xE2 :: 0x84 :: 0xAA :: t => 0x4B :: foldName t
  | c :: t => (if 0x61 ≤ c ∧ c ≤ 0x7A then c - 0x20 else c) :: foldName t

/-- The field an object key selects: the one with that exact name, else the first
whose name is equal under case folding. -/
def findField {T : Type} (fields : List (Field T)) (key : GoString) : Option (Field T) :=
  match fields.find? (fun f => decide (f.name = key)) with
  | some f => some f
  | none => fields.find? (fun f => decide (foldName f.name = foldName key))

/-- Stores the members of an object into the struct `t`; a key that selects no field
is skipped. -/
def storeFields {T : Type} (fields : List (Field T)) : List (GoString × JSON) → T → Option T
  | [], t => some t
  | (k, v) :: ms, t =>
    match findField fields k with
    | none => storeFields fields ms t
    | some f =>
      match f.store t v with
      | none => none
      | some t1 => storeFields fields ms t1

/-- Stores a JSON value into a nil pointer to a struct whose zero value is `zero`:
`null` leaves it nil, an object allocates the struct and fills it. -/
def storePtr {T : Type} (fields : List (Field T)) (zero : T) (j : JSON) : Option (Option T) :=
  match j with
  | JSON.null => some none
  | JSON.obj ms =>
    match storeFields fields ms zero with
    | none => none
    | some t => some (some t)
  | _ => none

/-- Stores each element of an array with `f`. -/
def storeElems {α : Type} (f : JSON → Option α) : List JSON → Option (List α)
  | [] => some []
  | j :: js =>
    match f j with
    | none => none
    | some a =>
      match storeElems f js with
      | none => none
      | some as => some (a :: as)

/-- Stores a JSON value into a nil slice: `null` leaves it nil, an array gives a slice
of its elements. -/
def storeSlice {α : Type} (f : JSON → Option α) (j : JSON) : Option (Slice α) :=
  match j with
  | JSON.null => some none
  | JSON.arr js =>
    match storeElems f js with
    | none => none
    | some l => some (some l)
  | _ => none

/-- The fields of `Account`. -/
def accountFields : List (Field Account) :=
  [⟨lit "accountId", fun a j => (storeInt j a.AccountId).map fun x => { a with AccountId := x }⟩,
   ⟨lit "orgId", fun a j => (storeInt j a.OrgId).map fun x => { a with OrgId := x }⟩,
   ⟨lit "userId", fun a j => (storeInt j a.UserId).map fun x => { a with UserId := x }⟩,
   ⟨lit "currency", fun a j => (storeString j a.Currency).map fun x => { a with Currency := x }⟩,
   ⟨lit "availAmount",
    fun a j => (storeString j a.AvailAmount).map fun x => { a with AvailAmount := x }⟩,
   ⟨lit "freezeAmount",
    fun a j => (storeString j a.FreezeAmount).map fun x => { a with FreezeAmount := x }⟩,
   ⟨lit "status", fun a j => (storeInt j a.Status).map fun x => { a with Status := x }⟩,
   ⟨lit "createTime", fun a j => (storeInt j a.CreateTime).map fun x => { a with CreateTime := x }⟩,
   ⟨lit "updateTime", fun a j => (storeInt j a.UpdateTime).map fun x => { a with UpdateTime := x }⟩]

/-- The fields of `LogList`. -/
def logListFields : List (Field LogList) :=
  [⟨lit "logId", fun a j => (storeInt j a.LogId).map fun x => { a with LogId := x }⟩,
   ⟨lit "userId", fun a j => (storeInt j a.UserId).map fun x => { a with UserId := x }⟩,
   ⟨lit "currency", fun a j => (storeString j a.Currency).map fun x => { a with Currency := x }⟩,
   ⟨lit "logType", fun a j => (storeInt j a.LogType).map fun x => { a with LogType := x }⟩,
   ⟨lit "amount", fun a j => (storeString j a.Amount).map fun x => { a with Amount := x }⟩,
   ⟨lit "createTime", fun a j => (storeInt j a.CreateTime).map fun x => { a with CreateTime := x }⟩]

/-- The fields of `TaskDetail`. -/
def taskDetailFields : List (Field TaskDetail) :=
  [⟨lit "opType", fun a j => (storeInt j a.OpType).map fun x => { a with OpType := x }⟩,
   ⟨lit "bsType", fun a j => (storeInt j a.BsType).map fun x => { a with BsType := x }⟩,
   ⟨lit "accountId", fun a j => (storeInt j a.AccountId).map fun x => { a with AccountId := x }⟩,
   ⟨lit "userId", fun a j => (storeInt j a.UserId).map fun x => { a with UserId := x }⟩,
   ⟨lit "currency", fun a j => (storeString j a.Currency).map fun x => { a with Currency := x }⟩,
   ⟨lit "allowNegative",
    fun a j => (storeInt j a.AllowNegative).map fun x => { a with AllowNegative := x }⟩,
   ⟨lit "amount", fun a j => (storeString j a.Amount).map fun x => { a with Amount := x }⟩,
   ⟨lit "detail", fun a j => (storeString j a.Detail).map fun x => { a with Detail := x }⟩,
   ⟨lit "ext", fun a j => (storeString j a.Ext).map fun x => { a with Ext := x }⟩]

/-- The fields of `TaskCallBack`. -/
def taskCallBackFields : List (Field TaskCallBack) :=
  [⟨lit "callBackUrl",
    fun a j => (storeString j a.CallBackUrl).map fun x => { a with CallBackUrl := x }⟩,
   ⟨lit "data", fun a j => (storeMap j a.Data).map fun x => { a with Data := x }⟩]

/-- Go `json.Unmarshal(data, &v)` for a nil `v []*Account`. -/
def unmarshalAccounts (data : GoString) : Option (Slice (Option Account)) :=
  match parseJSON data with
  | none => none
  | some j => storeSlice (storePtr accountFields ⟨0, 0, 0, [], [], [], 0, 0, 0⟩) j

/-- Go `json.Unmarshal(data, &v)` for a nil `v []*LogList`. -/
def unmarshalLogLists (data : GoString) : Option (Slice (Option LogList)) :=
  match parseJSON data with
  | none => none
  | some j => storeSlice (storePtr logListFields ⟨0, 0, [], 0, [], 0⟩) j

/-- Go `json.Unmarshal(data, &v)` for an empty `v string`. -/
def unmarshalString (data : GoString) : Option GoString :=
  match parseJSON data with
  | none => none
  | some j => storeString j []

/-- Go `json.Unmarshal(data, &v)` for a nil `v []*TaskDetail`. -/
def unmarshalTaskDetails (data : GoString) : Option (Slice (Option TaskDetail)) :=
  match parseJSON data with
  | none => none
  | some j => storeSlice (storePtr taskDetailFields ⟨0, 0, 0, 0, [], 0, [], [], []⟩) j

/-- Go `json.Unmarshal(data, &v)` for a nil `v *TaskCallBack`. -/
def unmarshalTaskCallBack (data : GoString) : Option (Option TaskCallBack) :=
  match parseJSON data with
  | none => none
  | some j => storePtr taskCallBackFields ⟨[], none⟩ j

/-! ## The client and its collaborators -/

/-- The shared client `base_server_sdk.Instance` with the package's error values:
`DoRequest host service method params` returns the response bytes and an error
(`none` is nil). -/
structure Client (Err : Type) where
  ErrInvalidParams : Err
  ErrServiceBusy : Err
  AccountServerHost : GoString
  DoRequest : GoString → GoString → GoString → Params → GoString × Option Err

/-- One call of `DoRequest`. -/
structure Call where
  host : GoString
  service : GoString
  method : GoString
  params : Params
  deriving DecidableEq

/-- One call of `common.ErrorLog`: the tag, the parameters and the message. -/
structure LogRecord where
  tag : GoString
  params : Params
  message : GoString
  deriving DecidableEq

/-- What a run of an operation does: the returned value and error, the transport
calls and the log records, in order. -/
structure Outcome (Err : Type) (α : Type) where
  value : α
  err : Option Err
  calls : List Call
  logs : List LogRecord

/-! ## The operations -/

/-- Function `CreateAccount` of the source. -/
def CreateAccount {Err : Type} (client : Client Err) (orgId userId : Int)
    (currency : Slice GoString) : Outcome Err (Slice (Option Account)) :=
  if orgId ≤ 0 ∨ userId ≤ 0 ∨ len currency = 0 then
    ⟨none, some client.ErrInvalidParams, [], []⟩
  else
    let params : Params := []
    let params := params.set (lit "orgId") (Itoa orgId)
    let params := params.set (lit "userId") (FormatInt userId)
    let params := params.set (lit "currency") (Join currency (lit ","))
    let call : Call := ⟨client.AccountServerHost, lit "account", lit "createAccount", params⟩
    match client.DoRequest call.host call.service call.method call.params with
    | (_, some err) => ⟨none, some err, [call], []⟩
    | (data, none) =>
      match unmarshalAccounts data with
      | none =>
        ⟨none, some client.ErrServiceBusy, [call],
          [⟨lit "baseServerSdk_CreateAccount", params, lit "unmarshal account fail" ++ data⟩]⟩
      | some account => ⟨account, none, [call], []⟩

/-- Function `AccountInfo` of the source. -/
def AccountInfo {Err : Type} (client : Client Err) (orgId : Int) (userIds : Slice Int)
    (currency : GoString) : Outcome Err (Slice (Option Account)) :=
  if orgId ≤ 0 ∨ len userIds ≤ 0 then
    ⟨none, some client.ErrInvalidParams, [], []⟩
  else
    let params : Params := []
    let params := params.set (lit "orgId") (Itoa orgId)
    let userIdsMarshal := marshalInt64s userIds
    let params := params.set (lit "userIds") userIdsMarshal
    let params := params.set (lit "currency") currency
    let call : Call := ⟨client.AccountServerHost, lit "account", lit "accountInfo", params⟩
    match client.DoRequest call.host call.service call.method call.params with
    | (_, some err) => ⟨none, some err, [call], []⟩
    | (data, none) =>
      match unmarshalAccounts data with
      | none =>
        ⟨none, some client.ErrServiceBusy, [call],
          [⟨lit "baseServerSdk_AccountInfo", params, lit "unmarshal account fail" ++ data⟩]⟩
      | some account => ⟨account, none, [call], []⟩

/-- Function `UpdateStatus` of the source. -/
def UpdateStatus {Err : Type} (client : Client Err) (orgId accountId status : Int) :
    Outcome Err Unit :=
  if orgId ≤ 0 ∨ accountId ≤ 0 ∨ status ≤ 0 then
    ⟨(), some client.ErrInvalidParams, [], []⟩
  else
    let params : Params := []
    let params := params.set (lit "orgId") (Itoa orgId)
    let params := params.set (lit "accountId") (FormatInt accountId)
    let params := params.set (lit "status") (Itoa status)
    let call : Call := ⟨client.AccountServerHost, lit "account", lit "updateStatus", params⟩
    match client.DoRequest call.host call.service call.method call.params with
    | (_, some err) => ⟨(), some err, [call], []⟩
    | (_, none) => ⟨(), none, [call], []⟩

/-- Function `OperateAmount` of the source. -/
def OperateAmount {Err : Type} (client : Client Err) (orgId accountId opType bsType
    allowNegative : Int) (amount detail ext callback : GoString) : Outcome Err Unit :=
  if orgId ≤ 0 ∨ accountId ≤ 0 ∨ opType ≤ 0 ∨ bsType ≤ 0 ∨ amount = [] then
    ⟨(), some client.ErrInvalidParams, [], []⟩
  else
    let params : Params := []
    let params := params.set (lit "orgId") (Itoa orgId)
    let params := params.set (lit "accountId") (FormatInt accountId)
    let params := params.set (lit "opType") (Itoa opType)
    let params := params.set (lit "bsType") (Itoa bsType)
    let params := params.set (lit "allowNegative") (Itoa allowNegative)
    let params := params.set (lit "amount") amount
    let params := params.set (lit "detail") detail
    let params := params.set (lit "ext") ext
    let params := params.set (lit "callback") callback
    let call : Call := ⟨client.AccountServerHost, lit "account", lit "operateAmount", params⟩
    match client.DoRequest call.host call.service call.method call.params with
    | (_, some err) => ⟨(), some err, [call], []⟩
    | (_, none) => ⟨(), none, [call], []⟩

/-- Function `AccountLogList` of the source. -/
def AccountLogList {Err : Type} (client : Client Err) (orgId userId opType bsType : Int)
    (currency : GoString) (beginTime endTime page limit : Int) :
    Outcome Err (Slice (Option LogList)) :=
  if orgId ≤ 0 ∨ userId ≤ 0 ∨ opType < 0 ∨ page ≤ 0 ∨ limit ≤ 0 ∨ limit > 1000 then
    ⟨none, some client.ErrInvalidParams, [], []⟩
  else
    let params : Params := []
    let params := params.set (lit "orgId") (Itoa orgId)
    let params := params.set (lit "userId") (FormatInt userId)
    let params := params.set (lit "opType") (Itoa opType)
    let params := params.set (lit "bsType") (Itoa bsType)
    let params := params.set (lit "currency") currency
    let params := params.set (lit "beginTime") (Itoa beginTime)
    let params := params.set (lit "endTime") (Itoa endTime)
    let params := params.set (lit "page") (Itoa page)
    let params := params.set (lit "limit") (Itoa limit)
    let call : Call := ⟨client.AccountServerHost, lit "account", lit "accountLogList", params⟩
    match client.DoRequest call.host call.service call.method call.params with
    | (_, some err) => ⟨none, some err, [call], []⟩
    | (data, none) =>
      match unmarshalLogLists data with
      | none =>
        ⟨none, some client.ErrServiceBusy, [call],
          [⟨lit "baseServerSdk_AccountLogList", params,
            lit "unmarshal account list fail" ++ data⟩]⟩
      | some logList => ⟨logList, none, [call], []⟩

/-- Function `SumLog` of the source. -/
def SumLog {Err : Type} (client : Client Err) (orgId userId opType bsType : Int)
    (currency : GoString) (beginTime endTime : Int) : Outcome Err GoString :=
  if orgId ≤ 0 ∨ userId ≤ 0 ∨ opType < 0 then
    ⟨lit "0", some client.ErrInvalidParams, [], []⟩
  else
    let params : Params := []
    let params := params.set (lit "orgId") (Itoa orgId)
    let params := params.set (lit "userId") (FormatInt userId)
    let params := params.set (lit "opType") (Itoa opType)
    let params := params.set (lit "bsType") (Itoa bsType)
    let params := params.set (lit "currency") currency
    let params := params.set (lit "beginTime") (Itoa beginTime)
    let params := params.set (lit "endTime") (Itoa endTime)
    let call : Call := ⟨client.AccountServerHost, lit "account", lit "sumLog", params⟩
    match client.DoRequest call.host call.service call.method call.params with
    | (_, some err) => ⟨lit "0", some err, [call], []⟩
    | (data, none) =>
      match unmarshalString data with
      | none =>
        ⟨lit "0", some client.ErrServiceBusy, [call],
          [⟨lit "baseServerSdk_SumLog", params, lit "unmarshal sumAmount fail" ++ data⟩]⟩
      | some sumAmount => ⟨sumAmount, none, [call], []⟩

/-- Function `BatchOperateAmount` of the source. -/
def BatchOperateAmount {Err : Type} (client : Client Err) (orgId isAsync : Int)
    (details : Slice (Option TaskDetail)) (callback : Option TaskCallBack) :
    Outcome Err Unit :=
  if orgId ≤ 0 ∨ len details = 0 then
    ⟨(), some client.ErrInvalidParams, [], []⟩
  else
    let params : Params := []
    let params := params.set (lit "orgId") (Itoa orgId)
    let params := params.set (lit "isAsync") (Itoa isAsync)
    let taskDetailByte := marshalTaskDetails details
    let params := params.set (lit "detail") taskDetailByte
    let callbackData := marshalTaskCallBack callback
    let params := params.set (lit "callback") callbackData
    let call : Call :=
      ⟨client.AccountServerHost, lit "account", lit "batchOperateAmount", params⟩
    match client.DoRequest call.host call.service call.method call.params with
    | (_, some err) => ⟨(), some err, [call], []⟩
    | (_, none) => ⟨(), none, [call], []⟩

/-! ## Predicates and values the proofs speak about -/

/-- A decimal digit. -/
def IsDigit (c : Nat) : Prop := 0x30 ≤ c ∧ c ≤ 0x39

/-- A byte that ends a value inside an array or an object: `,`, `]` or `}`. -/
def IsDelim (c : Nat) : Prop := c = 0x2C ∨ c = 0x5D ∨ c = 0x7D

/-- The text starts with a byte that is neither white space nor a closing bracket. -/
def StartsValue (enc : List Nat) : Prop :=
  ∃ h t, enc = h :: t ∧ isSpace h = false ∧ h ≠ 0x5D ∧ h ≠ 0x7D

/-- The reader `pv` reads `v` from the text `enc` when a delimiter follows, and leaves
the delimiter. -/
def Reads (pv : List Nat → Option (JSON × List Nat)) (enc : List Nat) (v : JSON) : Prop :=
  StartsValue enc ∧ ∀ c r, IsDelim c → pv (enc ++ c :: r) = some (v, c :: r)

/-- The reader `pv` reads `v` from the text `enc` whatever follows. -/
def ReadsAny (pv : List Nat → Option (JSON × List Nat)) (enc : List Nat) (v : JSON) : Prop :=
  StartsValue enc ∧ ∀ r, pv (enc ++ r) = some (v, r)

/-- The JSON value the encoding of an integer denotes. -/
def intJSON (i : Int) : JSON := JSON.num (FormatInt i)

/-- The JSON value the encoding of a string denotes: the string coerced to UTF-8. -/
def strJSON (s : GoString) : JSON := JSON.str (toValidUTF8 s)

/-- The JSON value the encoding of a pointer denotes. -/
def ptrJSON {α : Type} (f : α → JSON) : Option α → JSON
  | none => JSON.null
  | some a => f a

/-- The JSON value the encoding of a slice denotes. -/
def sliceJSON {α : Type} (f : α → JSON) : Slice α → JSON
  | none => JSON.null
  | some l => JSON.arr (l.map f)

/-- The JSON value the encoding of a `map[string]string` denotes. -/
def mapJSON : Option Entries → JSON
  | none => JSON.null
  | some m => JSON.obj (m.map fun e => (toValidUTF8 e.1, strJSON e.2))

/-- The JSON value the encoding of a `TaskDetail` denotes. -/
def taskDetailJSON (d : TaskDetail) : JSON :=
  JSON.obj
    [(lit "opType", intJSON d.OpType), (lit "bsType", intJSON d.BsType),
     (lit "accountId", intJSON d.AccountId), (lit "userId", intJSON d.UserId),
     (lit "currency", strJSON d.Currency), (lit "allowNegative", intJSON d.AllowNegative),
     (lit "amount", strJSON d.Amount), (lit "detail", strJSON d.Detail),
     (lit "ext", strJSON d.Ext)]

/-- The JSON value the encoding of a `TaskCallBack` denotes. -/
def taskCallBackJSON (c : TaskCallBack) : JSON :=
  JSON.obj [(lit "callBackUrl", strJSON c.CallBackUrl), (lit "data", mapJSON c.Data)]

/-- The integer fields hold values of their Go types. -/
def TaskDetail.InRange (d : TaskDetail) : Prop :=
  InRange64 d.OpType ∧ InRange64 d.BsType ∧ InRange64 d.AccountId ∧ InRange64 d.UserId ∧
  InRange64 d.AllowNegative

/-- The string fields are valid UTF-8. -/
def TaskDetail.ValidUTF8 (d : TaskDetail) : Prop :=
  ValidString d.Currency = true ∧ ValidString d.Amount = true ∧
  ValidString d.Detail = true ∧ ValidString d.Ext = true

/-- The `Data` field, when not nil, lists a map: keys strictly ascending. -/
def TaskCallBack.IsMap (c : TaskCallBack) : Prop :=
  ∀ m, c.Data = some m → m.Sorted

/-- The URL and the keys and values of `Data` are valid UTF-8. -/
def TaskCallBack.ValidUTF8 (c : TaskCallBack) : Prop :=
  ValidString c.CallBackUrl = true ∧
  ∀ m, c.Data = some m → ∀ e ∈ m, ValidString e.1 = true ∧ ValidString e.2 = true

/-- The zero value of `TaskDetail`. -/
def TaskDetail.zero : TaskDetail := ⟨0, 0, 0, 0, [], 0, [], [], []⟩

/-- The response the client's transport gives to a call. -/
def Client.respond {Err : Type} (client : Client Err) (c : Call) : GoString × Option Err :=
  client.DoRequest c.host c.service c.method c.params

/-- A client whose transport answers every call with `resp`; its errors are numbers,
1001 for `ErrInvalidParams` and 1000 for `ErrServiceBusy`. -/
def stubClient (resp : GoString × Option Nat) : Client Nat :=
  ⟨1001, 1000, lit "account.local", fun _ _ _ _ => resp⟩

/-! ## Numbers: `strconv` and the number literals of JSON -/

theorem formatBits_acc (fuel n : Nat) (acc : List Nat) :
    formatBits fuel n acc = formatBits fuel n [] ++ acc := by
  induction fuel generalizing n acc with
  | zero => simp [formatBits]
  | succ f ih =>
    unfold formatBits
    split
    · simp
    · rw [ih (n / 10) ((0x30 + n % 10) :: acc), ih (n / 10) [0x30 + n % 10]]
      simp

theorem formatBits_fuel (f1 f2 n : Nat) (h1 : n < f1) (h2 : n < f2) :
    formatBits f1 n [] = formatBits f2 n [] := by
  induction f1 generalizing f2 n with
  | zero => omega
  | succ f ih =>
    cases f2 with
    | zero => omega
    | succ g =>
      unfold formatBits
      split
      · rfl
      · rw [formatBits_acc f, formatBits_acc g, ih g (n / 10) (by omega) (by omega)]

theorem FormatUint_small (n : Nat) (h : n < 10) : FormatUint n = [0x30 + n] := by
  simp [FormatUint, formatBits, h]

theorem FormatUint_large (n : Nat) (h : ¬ n < 10) :
    FormatUint n = FormatUint (n / 10) ++ [0x30 + n % 10] := by
  unfold FormatUint
  rw [formatBits, if_neg h, formatBits_acc,
    formatBits_fuel n (n / 10 + 1) (n / 10) (by omega) (by omega)]

theorem parseDigits_append (a : Nat) (xs ys : List Nat) :
    parseDigits a (xs ++ ys) = (parseDigits a xs).bind fun v => parseDigits v ys := by
  induction xs generalizing a with
  | nil => simp [parseDigits]
  | cons c t ih =>
    simp only [List.cons_append, parseDigits]
    split
    · exact ih _
    · rfl

theorem parseDigits_FormatUint (n : Nat) : parseDigits 0 (FormatUint n) = some n := by
  induction n using Nat.strong_induction_on with
  | _ n ih =>
    by_cases h : n < 10
    · rw [FormatUint_small n h]
      simp [parseDigits]
      omega
    · rw [FormatUint_large n h, parseDigits_append, ih (n / 10) (by omega)]
      simp [parseDigits]
      omega

theorem FormatUint_digits (n : Nat) : ∀ c ∈ FormatUint n, IsDigit c := by
  induction n using Nat.strong_induction_on with
  | _ n ih =>
    by_cases h : n < 10
    · rw [FormatUint_small n h]
      simp [IsDigit]
      omega
    · rw [FormatUint_large n h]
      intro c hc
      rcases List.mem_append.1 hc with hc | hc
      · exact ih (n / 10) (by omega) c hc
      · simp at hc
        simp [IsDigit, hc]
        omega

theorem FormatUint_head (n : Nat) (h : 0 < n) :
    ∃ c t, FormatUint n = c :: t ∧ 0x31 ≤ c ∧ c ≤ 0x39 := by
  induction n using Nat.strong_induction_on with
  | _ n ih =>
    by_cases h10 : n < 10
    · exact ⟨0x30 + n, [], FormatUint_small n h10, by omega, by omega⟩
    · obtain ⟨c, t, e, hc⟩ := ih (n / 10) (by omega) (by omega)
      exact ⟨c, t ++ [0x30 + n % 10], by rw [FormatUint_large n h10, e]; rfl, hc⟩

theorem ParseUint_FormatUint (n : Nat) : ParseUint (FormatUint n) = some n := by
  have h := parseDigits_FormatUint n
  unfold ParseUint
  split
  · next e =>
    by_cases h10 : n < 10
    · rw [FormatUint_small n h10] at e
      simp at e
    · rw [FormatUint_large n h10] at e
      simp at e
  · exact h

/-- Go `strconv.ParseInt` reads back what `strconv.FormatInt` writes for a 64-bit
value. -/
theorem ParseInt_FormatInt (i : Int) (h : InRange64 i) : ParseInt (FormatInt i) = some i := by
  unfold InRange64 at h
  unfold FormatInt
  split
  · next hneg =>
    simp only [ParseInt, ParseUint_FormatUint]
    rw [if_pos (by omega)]
    congr 1
    omega
  · next hpos =>
    have hu := ParseUint_FormatUint i.natAbs
    by_cases h0 : i.natAbs = 0
    · rw [h0] at hu ⊢
      have e : FormatUint 0 = [0x30] := FormatUint_small 0 (by omega)
      rw [e] at hu ⊢
      simp only [ParseInt, hu]
      simp
      omega
    · obtain ⟨c, t, e, hc1, hc2⟩ := FormatUint_head i.natAbs (by omega)
      rw [e] at hu ⊢
      unfold ParseInt
      split
      · next heq => simp at heq; omega
      · next heq => simp at heq; omega
      · rw [hu]
        simp only []
        rw [if_pos (by omega)]
        congr 1
        omega

theorem takeDigits_append (ds : List Nat) (c : Nat) (r : List Nat)
    (hds : ∀ x ∈ ds, IsDigit x) (hc : ¬ IsDigit c) :
    takeDigits (ds ++ c :: r) = (ds, c :: r) := by
  induction ds with
  | nil =>
    unfold IsDigit at hc
    simp [takeDigits, hc]
  | cons x t ih =>
    have hx : 0x30 ≤ x ∧ x ≤ 0x39 := hds x (List.mem_cons_self _ _)
    have ht := ih fun y hy => hds y (List.mem_cons_of_mem _ hy)
    rw [List.cons_append, takeDigits, if_pos hx, ht]

theorem scanInt_FormatUint (n c : Nat) (r : List Nat) (hc : ¬ IsDigit c) :
    scanInt (FormatUint n ++ c :: r) = some (FormatUint n, c :: r) := by
  by_cases h0 : n = 0
  · subst h0
    rw [FormatUint_small 0 (by omega)]
    simp [scanInt]
  · obtain ⟨x, t, e, hx1, hx2⟩ := FormatUint_head n (by omega)
    have hd := FormatUint_digits n
    rw [e] at hd ⊢
    have ht := takeDigits_append t c r (fun y hy => hd y (List.mem_cons_of_mem _ hy)) hc
    simp only [List.cons_append, scanInt, ht]
    rw [if_neg (by omega), if_pos ⟨hx1, hx2⟩]

theorem scanNumber_FormatInt (i : Int) (c : Nat) (r : List Nat) (hc : IsDelim c) :
    scanNumber (FormatInt i ++ c :: r) = some (FormatInt i, c :: r) := by
  have hnd : ¬ IsDigit c := by
    unfold IsDigit; unfold IsDelim at hc; omega
  have hfrac : scanFrac (c :: r) = some ([], c :: r) := by
    unfold scanFrac
    split
    · next heq => simp at heq; unfold IsDelim at hc; omega
    · rfl
  have hexp : scanExp (c :: r) = some ([], c :: r) := by
    have hc1 : c ≠ 101 ∧ c ≠ 69 := by unfold IsDelim at hc; omega
    simp [scanExp, hc1.1, hc1.2]
  unfold FormatInt
  split
  · simp [scanNumber, scanInt_FormatUint _ c r hnd, hfrac, hexp]
  · by_cases h0 : i.natAbs = 0
    · rw [h0, FormatUint_small 0 (by omega)]
      simp [scanNumber, scanInt, hfrac, hexp]
    · obtain ⟨x, t, e, hx1, hx2⟩ := FormatUint_head i.natAbs (by omega)
      have hs := scanInt_FormatUint i.natAbs c r hnd
      rw [e] at hs ⊢
      unfold scanNumber
      split
      · next heq => simp at heq; omega
      · simp only [hs, hfrac, hexp]
        simp

theorem FormatInt_head (i : Int) :
    ∃ x t, FormatInt i = x :: t ∧ (x = 0x2D ∨ (0x30 ≤ x ∧ x ≤ 0x39)) := by
  unfold FormatInt
  split
  · exact ⟨_, _, rfl, Or.inl rfl⟩
  · by_cases h0 : i.natAbs = 0
    · rw [h0, FormatUint_small 0 (by omega)]
      exact ⟨_, _, rfl, Or.inr (by omega)⟩
    · obtain ⟨x, t, e, hx1, hx2⟩ := FormatUint_head i.natAbs (by omega)
      exact ⟨x, t, e, Or.inr (by omega)⟩

theorem parseScalar_FormatInt (i : Int) (c : Nat) (r : List Nat) (hc : IsDelim c) :
    parseScalar (FormatInt i ++ c :: r) = some (JSON.num (FormatInt i), c :: r) := by
  have hs := scanNumber_FormatInt i c r hc
  obtain ⟨x, t, e, hx⟩ := FormatInt_head i
  rw [e] at hs ⊢
  unfold parseScalar
  split
  · next heq => simp at heq; omega
  · next heq => simp at heq; omega
  · next heq => simp at heq; omega
  · next heq => simp at heq; omega
  · simp only [hs]

theorem parseValue_scalar (depth c : Nat) (t : List Nat)
    (h : isSpace c = false ∧ c ≠ 0x5B ∧ c ≠ 0x7B) :
    parseValue depth (c :: t) = parseScalar (c :: t) := by
  have hw : skipWS (c :: t) = c :: t := by simp [skipWS, h.1]
  cases depth with
  | zero => simp [parseValue, hw]
  | succ d =>
    unfold parseValue
    rw [hw]
    split
    · next heq => simp at heq; omega
    · next heq => simp at heq; omega
    · rfl

/-- The decoder reads the integer an encoded integer field holds. -/
theorem parseValue_encodeInt (depth : Nat) (i : Int) (c : Nat) (r : List Nat) (hc : IsDelim c) :
    parseValue depth (encodeInt i ++ c :: r) = some (JSON.num (FormatInt i), c :: r) := by
  unfold encodeInt
  obtain ⟨x, t, e, hx⟩ := FormatInt_head i
  have hp := parseScalar_FormatInt i c r hc
  rw [e] at hp ⊢
  rw [List.cons_append] at hp ⊢
  rw [parseValue_scalar depth x _
    (by unfold isSpace; refine ⟨?_, ?_, ?_⟩ <;> simp <;> omega), hp]

/-! ## UTF-8 -/

theorem DecodeRune_two (b b1 : Nat) (t : List Nat) (h1 : 0xC2 ≤ b) (h2 : b < 0xE0)
    (h3 : 0x80 ≤ b1 ∧ b1 ≤ 0xBF) :
    DecodeRune (b :: b1 :: t) = (b % 32 * 64 + b1 % 64, 2) := by
  simp only [DecodeRune]
  rw [if_neg (by omega), if_neg (by omega), if_pos h2]
  rw [if_pos h3]

theorem DecodeRune_three (b b1 b2 : Nat) (t : List Nat) (h1 : 0xE0 ≤ b) (h2 : b < 0xF0)
    (h3 : (if b = 0xE0 then 0xA0 else 0x80) ≤ b1 ∧ b1 ≤ (if b = 0xED then 0x9F else 0xBF)
      ∧ 0x80 ≤ b2 ∧ b2 ≤ 0xBF) :
    DecodeRune (b :: b1 :: b2 :: t) = (b % 16 * 4096 + b1 % 64 * 64 + b2 % 64, 3) := by
  simp only [DecodeRune]
  rw [if_neg (by omega), if_neg (by omega), if_neg (by omega), if_pos h2]
  rw [if_pos h3]

theorem DecodeRune_four (b b1 b2 b3 : Nat) (t : List Nat) (h1 : 0xF0 ≤ b) (h2 : b < 0xF5)
    (h3 : (if b = 0xF0 then 0x90 else 0x80) ≤ b1 ∧ b1 ≤ (if b = 0xF4 then 0x8F else 0xBF)
      ∧ 0x80 ≤ b2 ∧ b2 ≤ 0xBF ∧ 0x80 ≤ b3 ∧ b3 ≤ 0xBF) :
    DecodeRune (b :: b1 :: b2 :: b3 :: t)
      = (b % 8 * 262144 + b1 % 64 * 4096 + b2 % 64 * 64 + b3 % 64, 4) := by
  simp only [DecodeRune]
  rw [if_neg (by omega), if_neg (by omega), if_neg (by omega), if_neg (by omega), if_pos h2]
  rw [if_pos h3]

/-- A lead byte either starts no valid encoding or starts the encoding of the rune
`DecodeRune` returns, which occupies the bytes it counts and nothing after them. -/
theorem DecodeRune_lead (b : Nat) (t : List Nat) (hb : 0x80 ≤ b) :
    DecodeRune (b :: t) = (RuneError, 1) ∨
    (2 ≤ (DecodeRune (b :: t)).2 ∧ (DecodeRune (b :: t)).2 - 1 ≤ t.length ∧
      EncodeRune (DecodeRune (b :: t)).1 = b :: t.take ((DecodeRune (b :: t)).2 - 1) ∧
      ∀ x, DecodeRune (b :: (t.take ((DecodeRune (b :: t)).2 - 1) ++ x))
        = DecodeRune (b :: t)) := by
  by_cases c1 : b < 0xC2
  · left
    simp only [DecodeRune]
    rw [if_neg (by omega), if_pos c1]
  by_cases c2 : b < 0xE0
  · rcases t with _ | ⟨b1, t⟩
    · left
      simp only [DecodeRune]
      rw [if_neg (by omega), if_neg c1, if_pos c2]
    · by_cases a : 0x80 ≤ b1 ∧ b1 ≤ 0xBF
      · right
        have e := DecodeRune_two b b1 t (by omega) c2 a
        rw [e]
        refine ⟨by simp, by simp, ?_, ?_⟩
        · unfold EncodeRune
          rw [if_neg (by omega), if_pos (by omega)]
          simp
          omega
        · intro x
          simpa using DecodeRune_two b b1 x (by omega) c2 a
      · left
        simp only [DecodeRune]
        rw [if_neg (by omega), if_neg c1, if_pos c2]
        rw [if_neg a]
  by_cases c3 : b < 0xF0
  · by_cases a : ∃ b1 b2 t2, t = b1 :: b2 :: t2 ∧
        (if b = 0xE0 then 0xA0 else 0x80) ≤ b1 ∧ b1 ≤ (if b = 0xED then 0x9F else 0xBF)
        ∧ 0x80 ≤ b2 ∧ b2 ≤ 0xBF
    · obtain ⟨b1, b2, t2, rfl, a⟩ := a
      right
      have e := DecodeRune_three b b1 b2 t2 (by omega) c3 a
      rw [e]
      refine ⟨by simp, by simp, ?_, ?_⟩
      · unfold EncodeRune
        split_ifs at a <;>
        · rw [if_neg (by omega), if_neg (by omega), if_neg (by omega), if_pos (by omega)]
          simp
          omega
      · intro x
        simpa using DecodeRune_three b b1 b2 x (by omega) c3 a
    · left
      simp only [DecodeRune]
      rw [if_neg (by omega), if_neg c1, if_neg c2, if_pos c3]
      rcases t with _ | ⟨b1, _ | ⟨b2, t2⟩⟩
      · rfl
      · rfl
      · simp only []
        rw [if_neg]
        intro h
        exact a ⟨b1, b2, t2, rfl, h⟩
  by_cases c4 : b < 0xF5
  · by_cases a : ∃ b1 b2 b3 t3, t = b1 :: b2 :: b3 :: t3 ∧
        (if b = 0xF0 then 0x90 else 0x80) ≤ b1 ∧ b1 ≤ (if b = 0xF4 then 0x8F else 0xBF)
        ∧ 0x80 ≤ b2 ∧ b2 ≤ 0xBF ∧ 0x80 ≤ b3 ∧ b3 ≤ 0xBF
    · obtain ⟨b1, b2, b3, t3, rfl, a⟩ := a
      right
      have e := DecodeRune_four b b1 b2 b3 t3 (by omega) c4 a
      rw [e]
      refine ⟨by simp, by simp, ?_, ?_⟩
      · unfold EncodeRune
        split_ifs at a <;>
        · rw [if_neg (by omega), if_neg (by omega), if_neg (by omega), if_neg (by omega)]
          simp
          omega
      · intro x
        simpa using DecodeRune_four b b1 b2 b3 x (by omega) c4 a
    · left
      simp only [DecodeRune]
      rw [if_neg (by omega), if_neg c1, if_neg c2, if_neg c3, if_pos c4]
      rcases t with _ | ⟨b1, _ | ⟨b2, _ | ⟨b3, t3⟩⟩⟩
      · rfl
      · rfl
      · rfl
      · simp only []
        rw [if_neg]
        intro h
        exact a ⟨b1, b2, b3, t3, rfl, h⟩
  · left
    simp only [DecodeRune]
    rw [if_neg (by omega), if_neg c1, if_neg c2, if_neg c3, if_neg c4]

/-! ## String literals: `unquote` after `appendString` -/

theorem hexVal_hexDigit (n : Nat) (h : n < 16) : hexVal (hexDigit n) = some n := by
  unfold hexVal hexDigit
  by_cases c : n < 10
  · rw [if_pos c, if_pos (by omega)]
    congr 1
    omega
  · rw [if_neg c, if_neg (by omega), if_pos (by omega)]
    congr 1
    omega

theorem unquoteLoop_ascii (fuel b : Nat) (x : List Nat) (h1 : b < 0x80) (h2 : htmlSafe b = true) :
    unquoteLoop (fuel + 1) (b :: x) = prepend [b] (unquoteLoop fuel x) := by
  simp only [htmlSafe, decide_eq_true_eq] at h2
  simp only [unquoteLoop]
  rw [if_neg (by omega), if_neg (by omega), if_neg (by omega), if_pos h1]

theorem unquoteLoop_u4 (fuel a b c d va vb vc vd : Nat) (x : List Nat)
    (ha : hexVal a = some va) (hb : hexVal b = some vb) (hc : hexVal c = some vc)
    (hd : hexVal d = some vd)
    (hns : ¬ (0xD800 ≤ ((va * 16 + vb) * 16 + vc) * 16 + vd
      ∧ ((va * 16 + vb) * 16 + vc) * 16 + vd < 0xE000)) :
    unquoteLoop (fuel + 1) (0x5C :: 0x75 :: a :: b :: c :: d :: x)
      = prepend (EncodeRune (((va * 16 + vb) * 16 + vc) * 16 + vd)) (unquoteLoop fuel x) := by
  simp only [unquoteLoop, getu4, ha, hb, hc, hd]
  simp [hns]

theorem unquoteLoop_escapeByte (fuel b : Nat) (x : List Nat) (h1 : b < 0x80) :
    unquoteLoop (fuel + 1) (escapeByte b ++ x) = prepend [b] (unquoteLoop fuel x) := by
  unfold escapeByte
  split_ifs with c1 c2 c3 c4 c5 c6
  · rcases c1 with rfl | rfl <;> simp [unquoteLoop, simpleEscape]
  · subst c2; simp [unquoteLoop, simpleEscape]
  · subst c3; simp [unquoteLoop, simpleEscape]
  · subst c4; simp [unquoteLoop, simpleEscape]
  · subst c5; simp [unquoteLoop, simpleEscape]
  · subst c6; simp [unquoteLoop, simpleEscape]
  · have e1 := hexVal_hexDigit (b / 16) (by omega)
    have e2 := hexVal_hexDigit (b % 16) (by omega)
    have e0 : hexVal 0x30 = some 0 := by decide
    have eb : ((0 * 16 + 0) * 16 + b / 16) * 16 + b % 16 = b := by omega
    have h := unquoteLoop_u4 fuel 0x30 0x30 _ _ 0 0 _ _ x e0 e0 e1 e2 (by omega)
    rw [eb] at h
    have ee : EncodeRune b = [b] := by
      unfold EncodeRune
      rw [if_pos (by omega)]
    rw [ee] at h
    exact h

theorem unquoteLoop_invalid (fuel : Nat) (x : List Nat) :
    unquoteLoop (fuel + 1) ([0x5C, 0x75, 0x66, 0x66, 0x66, 0x64] ++ x)
      = prepend (EncodeRune RuneError) (unquoteLoop fuel x) :=
  unquoteLoop_u4 fuel 0x66 0x66 0x66 0x64 15 15 15 13 x (by decide) (by decide) (by decide)
    (by decide) (by decide)

theorem unquoteLoop_separator (fuel r : Nat) (x : List Nat) (h : r = 0x2028 ∨ r = 0x2029) :
    unquoteLoop (fuel + 1) ([0x5C, 0x75, 0x32, 0x30, 0x32, hexDigit (r % 16)] ++ x)
      = prepend (EncodeRune r) (unquoteLoop fuel x) := by
  rcases h with rfl | rfl
  · exact unquoteLoop_u4 fuel 0x32 0x30 0x32 _ 2 0 2 8 x (by decide) (by decide) (by decide)
      (by decide) (by decide)
  · exact unquoteLoop_u4 fuel 0x32 0x30 0x32 _ 2 0 2 9 x (by decide) (by decide) (by decide)
      (by decide) (by decide)

theorem unquoteLoop_rune (fuel b : Nat) (t x : List Nat) (hb : 0x80 ≤ b)
    (hv : 2 ≤ (DecodeRune (b :: t)).2 ∧ (DecodeRune (b :: t)).2 - 1 ≤ t.length ∧
      EncodeRune (DecodeRune (b :: t)).1 = b :: t.take ((DecodeRune (b :: t)).2 - 1) ∧
      ∀ x, DecodeRune (b :: (t.take ((DecodeRune (b :: t)).2 - 1) ++ x))
        = DecodeRune (b :: t)) :
    unquoteLoop (fuel + 1) ((b :: t).take (DecodeRune (b :: t)).2 ++ x)
      = prepend (EncodeRune (DecodeRune (b :: t)).1) (unquoteLoop fuel x) := by
  obtain ⟨h1, h2, _, h4⟩ := hv
  obtain ⟨n, hn⟩ : ∃ n, (DecodeRune (b :: t)).2 = n + 1 := ⟨(DecodeRune (b :: t)).2 - 1, by omega⟩
  rw [hn] at h2 h4 ⊢
  simp only [Nat.add_sub_cancel] at h2 h4
  rw [List.take_succ_cons, List.cons_append]
  simp only [unquoteLoop]
  rw [if_neg (by omega), if_neg (by omega), if_neg (by omega), if_neg (by omega), h4 x, hn]
  simp only [Nat.add_sub_cancel]
  rw [List.drop_append_of_le_length (by simp; omega)]
  simp [List.drop_take]

theorem prepend_some (p s r : List Nat) : prepend p (some (s, r)) = some (p ++ s, r) := rfl

theorem escapeByte_length (b : Nat) : 0 < (escapeByte b).length := by
  unfold escapeByte
  split_ifs <;> simp

/-- The string loop of the decoder reads back what the string loop of the encoder
writes: the string, with its invalid bytes coerced to U+FFFD. -/
theorem unquoteLoop_appendStringLoop (fuel : Nat) :
    ∀ (s : GoString) (fuel2 : Nat) (rest : List Nat), s.length ≤ fuel →
      (appendStringLoop fuel s).length < fuel2 →
      unquoteLoop fuel2 (appendStringLoop fuel s ++ 0x22 :: rest)
        = some (coerceLoop fuel s, rest) := by
  induction fuel with
  | zero =>
    intro s fuel2 rest hs hf
    obtain ⟨g, rfl⟩ : ∃ g, fuel2 = g + 1 := ⟨fuel2 - 1, by omega⟩
    simp [appendStringLoop, coerceLoop, unquoteLoop]
  | succ f ih =>
    intro s fuel2 rest hs hf
    obtain ⟨g, rfl⟩ : ∃ g, fuel2 = g + 1 := ⟨fuel2 - 1, by omega⟩
    rcases s with _ | ⟨b, t⟩
    · simp [appendStringLoop, coerceLoop, unquoteLoop]
    · simp only [List.length_cons] at hs
      simp only [appendStringLoop, coerceLoop] at hf ⊢
      by_cases h1 : b < 0x80
      · rw [if_pos h1] at hf ⊢
        by_cases h2 : htmlSafe b = true
        · rw [if_pos h2] at hf ⊢
          rw [List.cons_append, unquoteLoop_ascii g b _ h1 h2,
            ih t g rest (by omega) (by simp at hf; omega)]
          simp [prepend, h1]
        · rw [if_neg h2] at hf ⊢
          have hl := escapeByte_length b
          rw [List.append_assoc, unquoteLoop_escapeByte g b _ h1,
            ih t g rest (by omega) (by simp at hf; omega)]
          simp [prepend, h1]
      · rw [if_neg h1] at hf ⊢
        rcases DecodeRune_lead b t (by omega) with hd | hd
        · rw [hd] at hf ⊢
          simp only [and_self, if_true, Nat.sub_self, List.drop_zero] at hf ⊢
          rw [List.append_assoc, unquoteLoop_invalid g,
            ih t g rest (by omega) (by simp at hf; omega)]
          simp [prepend, h1]
        · have hne : ¬ ((DecodeRune (b :: t)).1 = RuneError ∧ (DecodeRune (b :: t)).2 = 1) := by
            omega
          rw [if_neg hne] at hf ⊢
          have hlen : (t.drop ((DecodeRune (b :: t)).2 - 1)).length ≤ f := by
            simp; omega
          by_cases h3 : (DecodeRune (b :: t)).1 = 0x2028 ∨ (DecodeRune (b :: t)).1 = 0x2029
          · rw [if_pos h3] at hf ⊢
            rw [List.append_assoc, unquoteLoop_separator g _ _ h3,
              ih _ g rest hlen (by simp at hf; omega)]
            simp [prepend, h1]
          · rw [if_neg h3] at hf ⊢
            rw [List.append_assoc, unquoteLoop_rune g b t _ (by omega) hd,
              ih _ g rest hlen (by simp at hf; omega)]
            simp [prepend, h1]

/-- Reading the literal `appendString` writes gives the string coerced to valid UTF-8. -/
theorem unquote_appendString (s : GoString) (rest : List Nat) :
    ∃ body, appendString s ++ rest = 0x22 :: body ∧
      unquote body = some (toValidUTF8 s, rest) := by
  refine ⟨appendStringLoop s.length s ++ 0x22 :: rest, by simp [appendString], ?_⟩
  unfold unquote toValidUTF8
  exact unquoteLoop_appendStringLoop s.length s _ rest (le_refl _) (by simp)

theorem coerceLoop_valid (fuel : Nat) :
    ∀ s : GoString, s.length ≤ fuel → validLoop fuel s = true → coerceLoop fuel s = s := by
  induction fuel with
  | zero =>
    intro s hs _
    have : s = [] := List.length_eq_zero.1 (by omega)
    subst this
    rfl
  | succ f ih =>
    intro s hs hv
    rcases s with _ | ⟨b, t⟩
    · rfl
    · simp only [List.length_cons] at hs
      simp only [validLoop, coerceLoop] at hv ⊢
      by_cases h1 : b < 0x80
      · rw [if_pos h1] at hv ⊢
        rw [ih t (by omega) hv]
      · rw [if_neg h1] at hv ⊢
        rcases DecodeRune_lead b t (by omega) with hd | hd
        · rw [hd] at hv
          simp at hv
        · rw [if_neg (by omega)] at hv
          rw [hd.2.2.1, ih _ (by simp; omega) hv]
          simp

/-- A valid UTF-8 string is left as it is. -/
theorem toValidUTF8_of_valid (s : GoString) (h : ValidString s = true) : toValidUTF8 s = s :=
  coerceLoop_valid s.length s (le_refl _) h

/-! ## `strings.Join` against the JSON encoding of a list of strings -/

theorem EncodeRune_length (r : Nat) : (EncodeRune r).length ≤ 4 := by
  unfold EncodeRune
  split_ifs <;> simp

theorem appendStringLoop_length (fuel : Nat) :
    ∀ s : GoString, s.length ≤ fuel → s.length ≤ (appendStringLoop fuel s).length := by
  induction fuel with
  | zero =>
    intro s hs
    simp only [appendStringLoop, List.length_nil]
    omega
  | succ f ih =>
    intro s hs
    rcases s with _ | ⟨b, t⟩
    · simp
    · simp only [List.length_cons] at hs
      simp only [appendStringLoop]
      by_cases h1 : b < 0x80
      · rw [if_pos h1]
        have := ih t (by omega)
        by_cases h2 : htmlSafe b = true
        · rw [if_pos h2]
          simp only [List.length_cons]
          omega
        · rw [if_neg h2]
          have hl := escapeByte_length b
          simp only [List.length_append, List.length_cons]
          omega
      · rw [if_neg h1]
        rcases DecodeRune_lead b t (by omega) with hd | hd
        · rw [hd]
          have := ih t (by omega)
          simp only [and_self, if_true, List.length_append, List.length_cons, List.length_nil]
          omega
        · rw [if_neg (by omega)]
          have hlen := EncodeRune_length (DecodeRune (b :: t)).1
          rw [hd.2.2.1] at hlen
          simp only [List.length_cons, List.length_take] at hlen
          have := ih (t.drop ((DecodeRune (b :: t)).2 - 1)) (by simp; omega)
          simp only [List.length_drop] at this
          split_ifs
          · simp only [List.length_append, List.length_cons, List.length_nil]
            omega
          · simp only [List.length_append, List.length_cons, List.length_take]
            omega

theorem appendString_length (s : GoString) : s.length + 2 ≤ (appendString s).length := by
  have := appendStringLoop_length s.length s (le_refl _)
  simp only [appendString, List.length_cons, List.length_append, List.length_nil]
  omega

theorem joinList_length (t : List GoString) :
    ∀ a : GoString, (joinList (lit ",") (a :: t)).length
      ≤ (appendString a).length + (commaTail (t.map appendString)).length := by
  induction t with
  | nil =>
    intro a
    have := appendString_length a
    simp only [joinList, List.map_nil, commaTail, List.length_nil]
    omega
  | cons b t ih =>
    intro a
    have h1 := appendString_length a
    have h2 := ih b
    have h3 : (lit ",").length = 1 := by decide
    simp only [joinList, List.map_cons, commaTail, List.length_append, List.length_cons, h3]
    omega

/-- The text `strings.Join` gives for a list of strings is shorter than the JSON
encoding of the list, so the two differ. -/
theorem Join_ne_encodeSlice (currency : Slice GoString) :
    Join currency (lit ",") ≠ encodeSlice appendString currency := by
  intro h
  have hl := congrArg List.length h
  cases currency with
  | none => simp [Join, encodeSlice] at h; exact absurd h (by decide)
  | some l =>
    cases l with
    | nil => simp [Join, joinList, encodeSlice, encodeArray, commaSep] at hl
    | cons a t =>
      have := joinList_length t a
      simp only [Join, encodeSlice, encodeArray, List.map_cons, commaSep, List.length_cons,
        List.length_append, List.length_nil] at hl
      omega

/-! ## Arrays and objects: the parser after the encoder -/

theorem ReadsAny.reads {pv : List Nat → Option (JSON × List Nat)} {enc : List Nat} {v : JSON}
    (h : ReadsAny pv enc v) : Reads pv enc v :=
  ⟨h.1, fun c r _ => h.2 (c :: r)⟩

theorem skipWS_cons (c : Nat) (t : List Nat) (h : isSpace c = false) :
    skipWS (c :: t) = c :: t := by
  simp [skipWS, h]

theorem skipWS_delim (c : Nat) (t : List Nat) (h : IsDelim c) : skipWS (c :: t) = c :: t := by
  apply skipWS_cons
  unfold IsDelim at h
  unfold isSpace
  simp
  omega

theorem commaTail_length (xs : List (List Nat)) : xs.length ≤ (commaTail xs).length := by
  induction xs with
  | nil => simp [commaTail]
  | cons x t ih => simp [commaTail]; omega

theorem parseElems_commaTail (pv : List Nat → Option (JSON × List Nat)) :
    ∀ (xs : List (List Nat × JSON)) (x : List Nat × JSON) (fuel : Nat) (rest : List Nat),
      xs.length < fuel → Reads pv x.1 x.2 → (∀ it ∈ xs, Reads pv it.1 it.2) →
      parseElems pv fuel (x.1 ++ commaTail (xs.map Prod.fst) ++ 0x5D :: rest)
        = some (x.2 :: xs.map Prod.snd, rest) := by
  intro xs
  induction xs with
  | nil =>
    intro x fuel rest hf hx _
    obtain ⟨g, rfl⟩ : ∃ g, fuel = g + 1 := ⟨fuel - 1, by omega⟩
    simp only [List.map_nil, commaTail, List.append_nil, parseElems,
      hx.2 0x5D rest (Or.inr (Or.inl rfl)), skipWS_delim 0x5D rest (Or.inr (Or.inl rfl))]
  | cons y ys ih =>
    intro x fuel rest hf hx hxs
    obtain ⟨g, rfl⟩ : ∃ g, fuel = g + 1 := ⟨fuel - 1, by omega⟩
    simp only [List.length_cons] at hf
    have hy := ih y g rest (by omega) (hxs y (List.mem_cons_self _ _))
      (fun it hit => hxs it (List.mem_cons_of_mem _ hit))
    simp only [List.map_cons, commaTail, List.append_assoc, List.cons_append, parseElems,
      hx.2 0x2C _ (Or.inl rfl), skipWS_delim 0x2C _ (Or.inl rfl)]
    simp only [List.append_assoc] at hy
    rw [hy]

/-- An encoded array is read as the array of what its elements are read as. -/
theorem parseValue_encodeArray (depth : Nat) (items : List (List Nat × JSON))
    (h : ∀ it ∈ items, Reads (parseValue depth) it.1 it.2) :
    ReadsAny (parseValue (depth + 1)) (encodeArray (items.map Prod.fst))
      (JSON.arr (items.map Prod.snd)) := by
  refine ⟨⟨0x5B, _, rfl, by decide, by decide, by decide⟩, ?_⟩
  intro rest
  rcases items with _ | ⟨x, xs⟩
  · simp [encodeArray, commaSep, parseValue, skipWS, isSpace]
  · obtain ⟨⟨c, t, e, hc1, hc2, hc3⟩, _⟩ := h x (List.mem_cons_self _ _)
    have hp := parseElems_commaTail (parseValue depth) xs x
      (x.1 ++ commaTail (xs.map Prod.fst) ++ 0x5D :: rest).length rest
      (by have := commaTail_length (xs.map Prod.fst); simp at this ⊢; omega)
      (h x (List.mem_cons_self _ _)) (fun it hit => h it (List.mem_cons_of_mem _ hit))
    simp only [encodeArray, List.map_cons, commaSep, List.cons_append, List.append_assoc,
      List.nil_append] at hp ⊢
    rw [parseValue, skipWS_cons 0x5B _ (by decide)]
    simp only []
    rw [e] at hp ⊢
    simp only [List.cons_append] at hp ⊢
    rw [skipWS_cons c _ hc1]
    split
    · next heq => simp at heq; omega
    · simp only [List.length_cons, List.length_append] at hp ⊢
      rw [hp]

theorem parseMembers_last (pv : List Nat → Option (JSON × List Nat)) (fuel : Nat)
    (k : GoString) (enc : List Nat) (v : JSON) (r : List Nat) (hr : Reads pv enc v) :
    parseMembers pv (fuel + 1) (encodeMember (k, enc) ++ 0x7D :: r)
      = some ([(toValidUTF8 k, v)], r) := by
  obtain ⟨body, e, hu⟩ := unquote_appendString k (0x3A :: (enc ++ 0x7D :: r))
  have e2 : encodeMember (k, enc) ++ 0x7D :: r = 0x22 :: body := by
    rw [← e]
    simp [encodeMember]
  rw [e2, parseMembers, skipWS_cons 0x22 _ (by decide)]
  simp only [hu]
  rw [skipWS_cons 0x3A _ (by decide)]
  simp only [hr.2 0x7D r (Or.inr (Or.inr rfl))]
  rw [skipWS_cons 0x7D _ (by decide)]

theorem parseMembers_more (pv : List Nat → Option (JSON × List Nat)) (fuel : Nat)
    (k : GoString) (enc : List Nat) (v : JSON) (r r5 : List Nat)
    (ms : List (GoString × JSON)) (hr : Reads pv enc v)
    (hm : parseMembers pv fuel r = some (ms, r5)) :
    parseMembers pv (fuel + 1) (encodeMember (k, enc) ++ 0x2C :: r)
      = some ((toValidUTF8 k, v) :: ms, r5) := by
  obtain ⟨body, e, hu⟩ := unquote_appendString k (0x3A :: (enc ++ 0x2C :: r))
  have e2 : encodeMember (k, enc) ++ 0x2C :: r = 0x22 :: body := by
    rw [← e]
    simp [encodeMember]
  rw [e2, parseMembers, skipWS_cons 0x22 _ (by decide)]
  simp only [hu]
  rw [skipWS_cons 0x3A _ (by decide)]
  simp only [hr.2 0x2C r (Or.inl rfl)]
  rw [skipWS_cons 0x2C _ (by decide)]
  simp only [hm]

theorem parseMembers_commaTail (pv : List Nat → Option (JSON × List Nat)) :
    ∀ (xs : List (GoString × List Nat × JSON)) (x : GoString × List Nat × JSON) (fuel : Nat)
      (rest : List Nat),
      xs.length < fuel → Reads pv x.2.1 x.2.2 → (∀ it ∈ xs, Reads pv it.2.1 it.2.2) →
      parseMembers pv fuel (encodeMember (x.1, x.2.1)
          ++ commaTail (xs.map fun it => encodeMember (it.1, it.2.1)) ++ 0x7D :: rest)
        = some ((toValidUTF8 x.1, x.2.2) :: xs.map (fun it => (toValidUTF8 it.1, it.2.2)),
            rest) := by
  intro xs
  induction xs with
  | nil =>
    intro x fuel rest hf hx _
    obtain ⟨g, rfl⟩ : ∃ g, fuel = g + 1 := ⟨fuel - 1, by omega⟩
    simp only [List.map_nil, commaTail, List.append_nil]
    rw [parseMembers_last pv g x.1 x.2.1 x.2.2 rest hx]
  | cons y ys ih =>
    intro x fuel rest hf hx hxs
    obtain ⟨g, rfl⟩ : ∃ g, fuel = g + 1 := ⟨fuel - 1, by omega⟩
    simp only [List.length_cons] at hf
    have hy := ih y g rest (by omega) (hxs y (List.mem_cons_self _ _))
      (fun it hit => hxs it (List.mem_cons_of_mem _ hit))
    simp only [List.map_cons, commaTail, List.append_assoc, List.cons_append]
    simp only [List.append_assoc] at hy
    rw [parseMembers_more pv g x.1 x.2.1 x.2.2 _ _ _ hx hy]

/-- An encoded object is read as the object of its names and of what its values are
read as. -/
theorem parseValue_encodeObject (depth : Nat) (items : List (GoString × List Nat × JSON))
    (h : ∀ it ∈ items, Reads (parseValue depth) it.2.1 it.2.2) :
    ReadsAny (parseValue (depth + 1)) (encodeObject (items.map fun it => (it.1, it.2.1)))
      (JSON.obj (items.map fun it => (toValidUTF8 it.1, it.2.2))) := by
  refine ⟨⟨0x7B, _, rfl, by decide, by decide, by decide⟩, ?_⟩
  intro rest
  rcases items with _ | ⟨x, xs⟩
  · simp [encodeObject, commaSep, parseValue, skipWS, isSpace]
  · have hp := parseMembers_commaTail (parseValue depth) xs x
      (encodeMember (x.1, x.2.1) ++ commaTail (xs.map fun it => encodeMember (it.1, it.2.1))
        ++ 0x7D :: rest).length rest
      (by
        have := commaTail_length (xs.map fun it => encodeMember (it.1, it.2.1))
        simp at this ⊢
        omega)
      (h x (List.mem_cons_self _ _)) (fun it hit => h it (List.mem_cons_of_mem _ hit))
    have e : encodeMember (x.1, x.2.1) = 0x22 :: (appendStringLoop x.1.length x.1
        ++ 0x22 :: 0x3A :: x.2.1) := by
      simp [encodeMember, appendString]
    simp only [encodeObject, List.map_cons, List.map_map, commaSep, List.cons_append,
      List.append_assoc, List.nil_append, Function.comp_def] at hp ⊢
    rw [parseValue, skipWS_cons 0x7B _ (by decide)]
    simp only []
    rw [e] at hp ⊢
    simp only [List.cons_append] at hp ⊢
    rw [skipWS_cons 0x22 _ (by decide)]
    simp only [List.length_cons, List.length_append] at hp ⊢
    rw [hp]

/-! ## The encodings of the source's types are read back -/

theorem reads_string (depth : Nat) (s : GoString) :
    ReadsAny (parseValue depth) (appendString s) (strJSON s) := by
  refine ⟨⟨0x22, _, rfl, by decide, by decide, by decide⟩, ?_⟩
  intro r
  obtain ⟨body, e, hu⟩ := unquote_appendString s r
  rw [e, parseValue_scalar depth 0x22 body (by decide), parseScalar]
  simp only [hu]
  rfl

theorem reads_null (depth : Nat) : ReadsAny (parseValue depth) (lit "null") JSON.null := by
  refine ⟨⟨0x6E, _, rfl, by decide, by decide, by decide⟩, ?_⟩
  intro r
  show parseValue depth (0x6E :: 0x75 :: 0x6C :: 0x6C :: r) = _
  rw [parseValue_scalar depth 0x6E _ (by decide), parseScalar]

theorem reads_int (depth : Nat) (i : Int) :
    Reads (parseValue depth) (encodeInt i) (intJSON i) := by
  refine ⟨?_, fun c r hc => parseValue_encodeInt depth i c r hc⟩
  obtain ⟨x, t, e, hx⟩ := FormatInt_head i
  refine ⟨x, t, e, ?_, ?_, ?_⟩
  · unfold isSpace; simp; omega
  · omega
  · omega

theorem reads_taskDetail (depth : Nat) (d : TaskDetail) :
    ReadsAny (parseValue (depth + 1)) (encodeTaskDetail d) (taskDetailJSON d) := by
  have h := parseValue_encodeObject depth
    [(lit "opType", encodeInt d.OpType, intJSON d.OpType),
     (lit "bsType", encodeInt d.BsType, intJSON d.BsType),
     (lit "accountId", encodeInt d.AccountId, intJSON d.AccountId),
     (lit "userId", encodeInt d.UserId, intJSON d.UserId),
     (lit "currency", appendString d.Currency, strJSON d.Currency),
     (lit "allowNegative", encodeInt d.AllowNegative, intJSON d.AllowNegative),
     (lit "amount", appendString d.Amount, strJSON d.Amount),
     (lit "detail", appendString d.Detail, strJSON d.Detail),
     (lit "ext", appendString d.Ext, strJSON d.Ext)]
    (by
      intro it hit
      simp only [List.mem_cons, List.mem_singleton, List.not_mem_nil, or_false] at hit
      rcases hit with rfl | rfl | rfl | rfl | rfl | rfl | rfl | rfl | rfl
      · exact reads_int _ _
      · exact reads_int _ _
      · exact reads_int _ _
      · exact reads_int _ _
      · exact (reads_string _ _).reads
      · exact reads_int _ _
      · exact (reads_string _ _).reads
      · exact (reads_string _ _).reads
      · exact (reads_string _ _).reads)
  have k1 : toValidUTF8 (lit "opType") = lit "opType" := by decide
  have k2 : toValidUTF8 (lit "bsType") = lit "bsType" := by decide
  have k3 : toValidUTF8 (lit "accountId") = lit "accountId" := by decide
  have k4 : toValidUTF8 (lit "userId") = lit "userId" := by decide
  have k5 : toValidUTF8 (lit "currency") = lit "currency" := by decide
  have k6 : toValidUTF8 (lit "allowNegative") = lit "allowNegative" := by decide
  have k7 : toValidUTF8 (lit "amount") = lit "amount" := by decide
  have k8 : toValidUTF8 (lit "detail") = lit "detail" := by decide
  have k9 : toValidUTF8 (lit "ext") = lit "ext" := by decide
  simp only [List.map_cons, List.map_nil, k1, k2, k3, k4, k5, k6, k7, k8, k9] at h
  exact h

theorem reads_taskDetails (depth : Nat) (l : List (Option TaskDetail)) :
    ReadsAny (parseValue (depth + 2)) (marshalTaskDetails (some l))
      (sliceJSON (ptrJSON taskDetailJSON) (some l)) := by
  have h := parseValue_encodeArray (depth + 1)
    (l.map fun p => (encodePtr encodeTaskDetail p, ptrJSON taskDetailJSON p))
    (by
      intro it hit
      obtain ⟨p, _, rfl⟩ := List.mem_map.1 hit
      cases p with
      | none => exact (reads_null _).reads
      | some d => exact (reads_taskDetail depth d).reads)
  simp only [List.map_map, Function.comp_def] at h
  exact h

theorem reads_int64s (depth : Nat) (l : List Int) :
    ReadsAny (parseValue (depth + 1)) (marshalInt64s (some l)) (sliceJSON intJSON (some l)) := by
  have h := parseValue_encodeArray depth (l.map fun i => (encodeInt i, intJSON i))
    (by
      intro it hit
      obtain ⟨p, _, rfl⟩ := List.mem_map.1 hit
      exact reads_int _ _)
  simp only [List.map_map, Function.comp_def] at h
  exact h

theorem reads_map (depth : Nat) (m : Option Entries) :
    ReadsAny (parseValue (depth + 1)) (encodeMap m) (mapJSON m) := by
  cases m with
  | none => exact reads_null _
  | some m =>
    have h := parseValue_encodeObject depth
      (m.map fun e => (e.1, appendString e.2, strJSON e.2))
      (by
        intro it hit
        obtain ⟨p, _, rfl⟩ := List.mem_map.1 hit
        exact (reads_string _ _).reads)
    simp only [List.map_map, Function.comp_def] at h
    exact h

theorem reads_taskCallBack (depth : Nat) (c : TaskCallBack) :
    ReadsAny (parseValue (depth + 2)) (encodeTaskCallBack c) (taskCallBackJSON c) := by
  have h := parseValue_encodeObject (depth + 1)
    [(lit "callBackUrl", appendString c.CallBackUrl, strJSON c.CallBackUrl),
     (lit "data", encodeMap c.Data, mapJSON c.Data)]
    (by
      intro it hit
      simp only [List.mem_cons, List.mem_singleton, List.not_mem_nil, or_false] at hit
      rcases hit with rfl | rfl
      · exact (reads_string _ _).reads
      · exact (reads_map _ _).reads)
  have k1 : toValidUTF8 (lit "callBackUrl") = lit "callBackUrl" := by decide
  have k2 : toValidUTF8 (lit "data") = lit "data" := by decide
  simp only [List.map_cons, List.map_nil, k1, k2] at h
  exact h

theorem parseJSON_of_reads (enc : List Nat) (v : JSON)
    (h : ReadsAny (parseValue maxNestingDepth) enc v) : parseJSON enc = some v := by
  have h2 := h.2 []
  rw [List.append_nil] at h2
  unfold parseJSON
  rw [h2]
  rfl

/-- What `json.Marshal` writes for a `[]int64` is the JSON text of the slice. -/
theorem parseJSON_marshalInt64s (s : Slice Int) :
    parseJSON (marshalInt64s s) = some (sliceJSON intJSON s) := by
  cases s with
  | none => exact parseJSON_of_reads _ _ (reads_null _)
  | some l => exact parseJSON_of_reads _ _ (reads_int64s 9999 l)

/-- What `json.Marshal` writes for a `[]*TaskDetail` is the JSON text of the slice. -/
theorem parseJSON_marshalTaskDetails (s : Slice (Option TaskDetail)) :
    parseJSON (marshalTaskDetails s) = some (sliceJSON (ptrJSON taskDetailJSON) s) := by
  cases s with
  | none => exact parseJSON_of_reads _ _ (reads_null _)
  | some l => exact parseJSON_of_reads _ _ (reads_taskDetails 9998 l)

/-- What `json.Marshal` writes for a `*TaskCallBack` is the JSON text of the value. -/
theorem parseJSON_marshalTaskCallBack (c : Option TaskCallBack) :
    parseJSON (marshalTaskCallBack c) = some (ptrJSON taskCallBackJSON c) := by
  cases c with
  | none => exact parseJSON_of_reads _ _ (reads_null _)
  | some c => exact parseJSON_of_reads _ _ (reads_taskCallBack 9998 c)

/-! ## Storing the values read back -/

theorem bytesLt_irrefl (a : GoString) : bytesLt a a = false := by
  induction a with
  | nil => rfl
  | cons x t ih => simp [bytesLt, ih]

theorem bytesLt_asymm (a b : GoString) (h : bytesLt a b = true) : bytesLt b a = false := by
  induction a generalizing b with
  | nil =>
    cases b with
    | nil => rfl
    | cons y s => rfl
  | cons x t ih =>
    cases b with
    | nil => simp [bytesLt] at h
    | cons y s =>
      simp only [bytesLt, Bool.or_eq_true, Bool.and_eq_true, decide_eq_true_eq] at h
      rcases h with h | ⟨h1, h2⟩
      · simp [bytesLt]
        omega
      · subst h1
        simp [bytesLt, ih s h2]

theorem Entries.set_append (k v : GoString) (acc : Entries)
    (h : ∀ a ∈ acc, bytesLt a.1 k = true) : Entries.set k v acc = acc ++ [(k, v)] := by
  induction acc with
  | nil => rfl
  | cons a t ih =>
    obtain ⟨k1, v1⟩ := a
    have h1 : bytesLt k1 k = true := h (k1, v1) (List.mem_cons_self _ _)
    have hne : k ≠ k1 := by
      rintro rfl
      rw [bytesLt_irrefl] at h1
      exact Bool.false_ne_true h1
    rw [Entries.set, if_neg hne, bytesLt_asymm k1 k h1]
    simp only [Bool.false_eq_true, if_false, List.cons_append]
    rw [ih fun a ha => h a (List.mem_cons_of_mem _ ha)]

theorem storeEntries_sorted (m : Entries) :
    ∀ acc : Entries, (∀ a ∈ acc, ∀ e ∈ m, bytesLt a.1 e.1 = true) → m.Sorted →
      storeEntries (m.map fun e => (e.1, JSON.str e.2)) acc = some (acc ++ m) := by
  induction m with
  | nil =>
    intro acc _ _
    simp [storeEntries]
  | cons e t ih =>
    intro acc hacc hs
    unfold Entries.Sorted at hs
    rw [List.pairwise_cons] at hs
    simp only [List.map_cons, storeEntries, storeString]
    rw [Entries.set_append e.1 e.2 acc fun a ha => hacc a ha e (List.mem_cons_self _ _),
      ih (acc ++ [(e.1, e.2)]) ?_ hs.2]
    · simp
    · intro a ha x hx
      rcases List.mem_append.1 ha with ha | ha
      · exact hacc a ha x (List.mem_cons_of_mem _ hx)
      · simp only [List.mem_singleton] at ha
        subst ha
        exact hs.1 x hx

theorem storeFields_taskDetail (d : TaskDetail) (hr : d.InRange) (hv : d.ValidUTF8) :
    storePtr taskDetailFields TaskDetail.zero (taskDetailJSON d) = some (some d) := by
  obtain ⟨r1, r2, r3, r4, r5⟩ := hr
  obtain ⟨v1, v2, v3, v4⟩ := hv
  have f1 : findField taskDetailFields (lit "opType") = taskDetailFields[0]? := rfl
  have f2 : findField taskDetailFields (lit "bsType") = taskDetailFields[1]? := rfl
  have f3 : findField taskDetailFields (lit "accountId") = taskDetailFields[2]? := rfl
  have f4 : findField taskDetailFields (lit "userId") = taskDetailFields[3]? := rfl
  have f5 : findField taskDetailFields (lit "currency") = taskDetailFields[4]? := rfl
  have f6 : findField taskDetailFields (lit "allowNegative") = taskDetailFields[5]? := rfl
  have f7 : findField taskDetailFields (lit "amount") = taskDetailFields[6]? := rfl
  have f8 : findField taskDetailFields (lit "detail") = taskDetailFields[7]? := rfl
  have f9 : findField taskDetailFields (lit "ext") = taskDetailFields[8]? := rfl
  simp only [storePtr, taskDetailJSON, storeFields, f1, f2, f3, f4, f5, f6, f7, f8, f9]
  simp [taskDetailFields, storeInt, storeString, intJSON, strJSON,
    ParseInt_FormatInt _ r1, ParseInt_FormatInt _ r2, ParseInt_FormatInt _ r3,
    ParseInt_FormatInt _ r4, ParseInt_FormatInt _ r5, toValidUTF8_of_valid _ v1,
    toValidUTF8_of_valid _ v2, toValidUTF8_of_valid _ v3, toValidUTF8_of_valid _ v4,
    TaskDetail.zero]

theorem storeElems_taskDetails (l : List (Option TaskDetail))
    (h : ∀ d, some d ∈ l → d.InRange ∧ d.ValidUTF8) :
    storeElems (storePtr taskDetailFields TaskDetail.zero) (l.map (ptrJSON taskDetailJSON))
      = some l := by
  induction l with
  | nil => rfl
  | cons p t ih =>
    have ht := ih fun d hd => h d (List.mem_cons_of_mem _ hd)
    cases p with
    | none => simp [storeElems, ptrJSON, storePtr, ht]
    | some d =>
      have hd := h d (List.mem_cons_self _ _)
      simp [storeElems, ptrJSON, storeFields_taskDetail d hd.1 hd.2, ht]

/-- Decoding what `json.Marshal` wrote for a `[]*TaskDetail` whose strings are
valid UTF-8 gives the slice back. -/
theorem unmarshal_marshalTaskDetails (s : Slice (Option TaskDetail))
    (h : ∀ l, s = some l → ∀ d, some d ∈ l → d.InRange ∧ d.ValidUTF8) :
    unmarshalTaskDetails (marshalTaskDetails s) = some s := by
  unfold unmarshalTaskDetails
  rw [parseJSON_marshalTaskDetails]
  cases s with
  | none => rfl
  | some l =>
    have := storeElems_taskDetails l (h l rfl)
    simp only [sliceJSON, storeSlice]
    unfold TaskDetail.zero at this
    rw [this]

theorem storeFields_taskCallBack (c : TaskCallBack) (hm : c.IsMap) (hv : c.ValidUTF8) :
    storePtr taskCallBackFields ⟨[], none⟩ (taskCallBackJSON c) = some (some c) := by
  obtain ⟨url, data⟩ := c
  have f1 : findField taskCallBackFields (lit "callBackUrl") = taskCallBackFields[0]? := rfl
  have f2 : findField taskCallBackFields (lit "data") = taskCallBackFields[1]? := rfl
  simp only [storePtr, taskCallBackJSON, storeFields, f1, f2]
  have hdata : storeMap (mapJSON data) none = some data := by
    cases data with
    | none => rfl
    | some m =>
      have e : (m.map fun e => (toValidUTF8 e.1, strJSON e.2))
          = m.map fun e => (e.1, JSON.str e.2) := by
        apply List.map_congr_left
        intro e he
        have := hv.2 m rfl e he
        simp [strJSON, toValidUTF8_of_valid _ this.1, toValidUTF8_of_valid _ this.2]
      have := storeEntries_sorted m [] (by simp) (hm m rfl)
      simp only [mapJSON, storeMap, e, Option.getD_none, this, List.nil_append]
  simp [taskCallBackFields, storeString, strJSON, toValidUTF8_of_valid _ hv.1, hdata]

/-- Decoding what `json.Marshal` wrote for a `*TaskCallBack` whose strings are
valid UTF-8 gives the value back. -/
theorem unmarshal_marshalTaskCallBack (c : Option TaskCallBack)
    (h : ∀ x, c = some x → x.IsMap ∧ x.ValidUTF8) :
    unmarshalTaskCallBack (marshalTaskCallBack c) = some c := by
  unfold unmarshalTaskCallBack
  rw [parseJSON_marshalTaskCallBack]
  cases c with
  | none => rfl
  | some x => exact storeFields_taskCallBack x (h x rfl).1 (h x rfl).2

/-! ## The runs of the operations

For each operation: what a run with rejected arguments is, and what a run with
accepted arguments is in terms of the one transport call it makes. -/


theorem CreateAccount_rejected {Err : Type} (client : Client Err)
    (orgId userId : Int) (currency : Slice GoString)
    (h : orgId ≤ 0 ∨ userId ≤ 0 ∨ len currency = 0) :
    (CreateAccount client orgId userId currency).err = some client.ErrInvalidParams ∧
    (CreateAccount client orgId userId currency).calls = [] ∧
    (CreateAccount client orgId userId currency).logs = [] ∧
    (CreateAccount client orgId userId currency).value = none := by
  unfold CreateAccount
  rw [if_pos h]
  exact ⟨rfl, rfl, rfl, rfl⟩

theorem CreateAccount_accepted {Err : Type} (client : Client Err)
    (orgId userId : Int) (currency : Slice GoString)
    (h1 : 0 < orgId) (h2 : 0 < userId) (h3 : 0 < len currency) :
    ∃ c : Call, (CreateAccount client orgId userId currency).calls = [c] ∧
      c.host = client.AccountServerHost ∧ c.service = lit "account" ∧
      c.method = lit "createAccount" ∧
      c.params.get (lit "orgId") = some (Itoa orgId) ∧
      c.params.get (lit "userId") = some (FormatInt userId) ∧
      c.params.get (lit "currency") = some (Join currency (lit ",")) ∧
      (∀ e, (client.respond c).2 = some e →
        (CreateAccount client orgId userId currency).value = none ∧
        (CreateAccount client orgId userId currency).err = some e ∧
        (CreateAccount client orgId userId currency).logs = []) ∧
      ((client.respond c).2 = none → unmarshalAccounts (client.respond c).1 = none →
        (CreateAccount client orgId userId currency).value = none ∧
        (CreateAccount client orgId userId currency).err = some client.ErrServiceBusy ∧
        (CreateAccount client orgId userId currency).logs =
          [⟨lit "baseServerSdk_CreateAccount", c.params,
            lit "unmarshal account fail" ++ (client.respond c).1⟩]) ∧
      ((client.respond c).2 = none → ∀ v, unmarshalAccounts (client.respond c).1 = some v →
        (CreateAccount client orgId userId currency).value = v ∧
        (CreateAccount client orgId userId currency).err = none ∧
        (CreateAccount client orgId userId currency).logs = []) := by
  unfold CreateAccount Client.respond
  rw [if_neg (by omega)]
  simp only []
  rcases hd : client.DoRequest client.AccountServerHost (lit "account") (lit "createAccount") _
    with ⟨data, _ | err⟩
  · simp only []
    cases hu : unmarshalAccounts data
    · simp only []
      refine ⟨_, rfl, rfl, rfl, rfl, rfl, rfl, rfl, ?_, ?_, ?_⟩ <;> simp [hd, hu]
    · simp only []
      refine ⟨_, rfl, rfl, rfl, rfl, rfl, rfl, rfl, ?_, ?_, ?_⟩ <;> simp [hd, hu]
  · simp only []
    refine ⟨_, rfl, rfl, rfl, rfl, rfl, rfl, rfl, ?_, ?_, ?_⟩ <;> simp [hd]

theorem AccountInfo_rejected {Err : Type} (client : Client Err)
    (orgId : Int) (userIds : Slice Int) (currency : GoString)
    (h : orgId ≤ 0 ∨ len userIds = 0) :
    (AccountInfo client orgId userIds currency).err = some client.ErrInvalidParams ∧
    (AccountInfo client orgId userIds currency).calls = [] ∧
    (AccountInfo client orgId userIds currency).logs = [] ∧
    (AccountInfo client orgId userIds currency).value = none := by
  unfold AccountInfo
  rw [if_pos (by omega)]
  exact ⟨rfl, rfl, rfl, rfl⟩

theorem AccountInfo_accepted {Err : Type} (client : Client Err)
    (orgId : Int) (userIds : Slice Int) (currency : GoString)
    (h1 : 0 < orgId) (h2 : 0 < len userIds) :
    ∃ c : Call, (AccountInfo client orgId userIds currency).calls = [c] ∧
      c.host = client.AccountServerHost ∧ c.service = lit "account" ∧
      c.method = lit "accountInfo" ∧
      c.params.get (lit "orgId") = some (Itoa orgId) ∧
      c.params.get (lit "userIds") = some (marshalInt64s userIds) ∧
      c.params.get (lit "currency") = some (currency) ∧
      (∀ e, (client.respond c).2 = some e →
        (AccountInfo client orgId userIds currency).value = none ∧
        (AccountInfo client orgId userIds currency).err = some e ∧
        (AccountInfo client orgId userIds currency).logs = []) ∧
      ((client.respond c).2 = none → unmarshalAccounts (client.respond c).1 = none →
        (AccountInfo client orgId userIds currency).value = none ∧
        (AccountInfo client orgId userIds currency).err = some client.ErrServiceBusy ∧
        (AccountInfo client orgId userIds currency).logs =
          [⟨lit "baseServerSdk_AccountInfo", c.params,
            lit "unmarshal account fail" ++ (client.respond c).1⟩]) ∧
      ((client.respond c).2 = none → ∀ v, unmarshalAccounts (client.respond c).1 = some v →
        (AccountInfo client orgId userIds currency).value = v ∧
        (AccountInfo client orgId userIds currency).err = none ∧
        (AccountInfo client orgId userIds currency).logs = []) := by
  unfold AccountInfo Client.respond
  rw [if_neg (by omega)]
  simp only []
  rcases hd : client.DoRequest client.AccountServerHost (lit "account") (lit "accountInfo") _
    with ⟨data, _ | err⟩
  · simp only []
    cases hu : unmarshalAccounts data
    · simp only []
      refine ⟨_, rfl, rfl, rfl, rfl, rfl, rfl, rfl, ?_, ?_, ?_⟩ <;> simp [hd, hu]
    · simp only []
      refine ⟨_, rfl, rfl, rfl, rfl, rfl, rfl, rfl, ?_, ?_, ?_⟩ <;> simp [hd, hu]
  · simp only []
    refine ⟨_, rfl, rfl, rfl, rfl, rfl, rfl, rfl, ?_, ?_, ?_⟩ <;> simp [hd]

theorem UpdateStatus_rejected {Err : Type} (client : Client Err)
    (orgId accountId status : Int)
    (h : orgId ≤ 0 ∨ accountId ≤ 0 ∨ status ≤ 0) :
    (UpdateStatus client orgId accountId status).err = some client.ErrInvalidParams ∧
    (UpdateStatus client orgId accountId status).calls = [] ∧
    (UpdateStatus client orgId accountId status).logs = [] ∧
    (UpdateStatus client orgId accountId status).value = () := by
  unfold UpdateStatus
  rw [if_pos h]
  exact ⟨rfl, rfl, rfl, rfl⟩

theorem UpdateStatus_accepted {Err : Type} (client : Client Err)
    (orgId accountId status : Int)
    (h1 : 0 < orgId) (h2 : 0 < accountId) (h3 : 0 < status) :
    ∃ c : Call, (UpdateStatus client orgId accountId status).calls = [c] ∧
      c.host = client.AccountServerHost ∧ c.service = lit "account" ∧
      c.method = lit "updateStatus" ∧
      c.params.get (lit "orgId") = some (Itoa orgId) ∧
      c.params.get (lit "accountId") = some (FormatInt accountId) ∧
      c.params.get (lit "status") = some (Itoa status) ∧
      (∀ e, (client.respond c).2 = some e →
        (UpdateStatus client orgId accountId status).err = some e) ∧
      ((client.respond c).2 = none →
        (UpdateStatus client orgId accountId status).err = none) ∧
      (UpdateStatus client orgId accountId status).logs = [] := by
  unfold UpdateStatus Client.respond
  rw [if_neg (by omega)]
  simp only []
  rcases hd : client.DoRequest client.AccountServerHost (lit "account") (lit "updateStatus") _
    with ⟨data, _ | err⟩
  · simp only []
    refine ⟨_, rfl, rfl, rfl, rfl, rfl, rfl, rfl, ?_, ?_, ?_⟩ <;> simp [hd]
  · simp only []
    refine ⟨_, rfl, rfl, rfl, rfl, rfl, rfl, rfl, ?_, ?_, ?_⟩ <;> simp [hd]

theorem OperateAmount_rejected {Err : Type} (client : Client Err)
    (orgId accountId opType bsType allowNegative : Int)
    (amount detail ext callback : GoString)
    (h : orgId ≤ 0 ∨ accountId ≤ 0 ∨ opType ≤ 0 ∨ bsType ≤ 0 ∨ amount = []) :
    (OperateAmount client orgId accountId opType bsType allowNegative
          amount detail ext callback).err = some client.ErrInvalidParams ∧
    (OperateAmount client orgId accountId opType bsType allowNegative
          amount detail ext callback).calls = [] ∧
    (OperateAmount client orgId accountId opType bsType allowNegative
          amount detail ext callback).logs = [] ∧
    (OperateAmount client orgId accountId opType bsType allowNegative
          amount detail ext callback).value = () := by
  unfold OperateAmount
  rw [if_pos h]
  exact ⟨rfl, rfl, rfl, rfl⟩

theorem OperateAmount_accepted {Err : Type} (client : Client Err)
    (orgId accountId opType bsType allowNegative : Int)
    (amount detail ext callback : GoString)
    (h1 : 0 < orgId) (h2 : 0 < accountId) (h3 : 0 < opType) (h4 : 0 < bsType) (h5 : amount ≠ []) :
    ∃ c : Call, (OperateAmount client orgId accountId opType bsType allowNegative
          amount detail ext callback).calls = [c] ∧
      c.host = client.AccountServerHost ∧ c.service = lit "account" ∧
      c.method = lit "operateAmount" ∧
      c.params.get (lit "orgId") = some (Itoa orgId) ∧
      c.params.get (lit "accountId") = some (FormatInt accountId) ∧
      c.params.get (lit "opType") = some (Itoa opType) ∧
      c.params.get (lit "bsType") = some (Itoa bsType) ∧
      c.params.get (lit "allowNegative") = some (Itoa allowNegative) ∧
      c.params.get (lit "amount") = some (amount) ∧
      c.params.get (lit "detail") = some (detail) ∧
      c.params.get (lit "ext") = some (ext) ∧
      c.params.get (lit "callback") = some (callback) ∧
      (∀ e, (client.respond c).2 = some e →
        (OperateAmount client orgId accountId opType bsType allowNegative
          amount detail ext callback).err = some e) ∧
      ((client.respond c).2 = none →
        (OperateAmount client orgId accountId opType bsType allowNegative
          amount detail ext callback).err = none) ∧
      (OperateAmount client orgId accountId opType bsType allowNegative
          amount detail ext callback).logs = [] := by
  unfold OperateAmount Client.respond
  rw [if_neg (by rintro (h | h | h | h | h) <;> first | omega | contradiction)]
  simp only []
  rcases hd : client.DoRequest client.AccountServerHost (lit "account") (lit "operateAmount") _
    with ⟨data, _ | err⟩
  · simp only []
    refine ⟨_, rfl, rfl, rfl, rfl, rfl, rfl, rfl, rfl, rfl, rfl, rfl, rfl, rfl, ?_, ?_, ?_⟩ <;> simp [hd]
  · simp only []
    refine ⟨_, rfl, rfl, rfl, rfl, rfl, rfl, rfl, rfl, rfl, rfl, rfl, rfl, rfl, ?_, ?_, ?_⟩ <;> simp [hd]

theorem AccountLogList_rejected {Err : Type} (client : Client Err)
    (orgId userId opType bsType : Int)
    (currency : GoString) (beginTime endTime page limit : Int)
    (h : orgId ≤ 0 ∨ userId ≤ 0 ∨ opType < 0 ∨ page ≤ 0 ∨ limit ≤ 0 ∨ 1000 < limit) :
    (AccountLogList client orgId userId opType bsType currency
          beginTime endTime page limit).err = some client.ErrInvalidParams ∧
    (AccountLogList client orgId userId opType bsType currency
          beginTime endTime page limit).calls = [] ∧
    (AccountLogList client orgId userId opType bsType currency
          beginTime endTime page limit).logs = [] ∧
    (AccountLogList client orgId userId opType bsType currency
          beginTime endTime page limit).value = none := by
  unfold AccountLogList
  rw [if_pos h]
  exact ⟨rfl, rfl, rfl, rfl⟩

theorem AccountLogList_accepted {Err : Type} (client : Client Err)
    (orgId userId opType bsType : Int)
    (currency : GoString) (beginTime endTime page limit : Int)
    (h1 : 0 < orgId) (h2 : 0 < userId) (h3 : 0 ≤ opType) (h4 : 0 < page) (h5 : 0 < limit) (h6 : limit ≤ 1000) :
    ∃ c : Call, (AccountLogList client orgId userId opType bsType currency
          beginTime endTime page limit).calls = [c] ∧
      c.host = client.AccountServerHost ∧ c.service = lit "account" ∧
      c.method = lit "accountLogList" ∧
      c.params.get (lit "orgId") = some (Itoa orgId) ∧
      c.params.get (lit "userId") = some (FormatInt userId) ∧
      c.params.get (lit "opType") = some (Itoa opType) ∧
      c.params.get (lit "bsType") = some (Itoa bsType) ∧
      c.params.get (lit "currency") = some (currency) ∧
      c.params.get (lit "beginTime") = some (Itoa beginTime) ∧
      c.params.get (lit "endTime") = some (Itoa endTime) ∧
      c.params.get (lit "page") = some (Itoa page) ∧
      c.params.get (lit "limit") = some (Itoa limit) ∧
      (∀ e, (client.respond c).2 = some e →
        (AccountLogList client orgId userId opType bsType currency
          beginTime endTime page limit).value = none ∧
        (AccountLogList client orgId userId opType bsType currency
          beginTime endTime page limit).err = some e ∧
        (AccountLogList client orgId userId opType bsType currency
          beginTime endTime page limit).logs = []) ∧
      ((client.respond c).2 = none → unmarshalLogLists (client.respond c).1 = none →
        (AccountLogList client orgId userId opType bsType currency
          beginTime endTime page limit).value = none ∧
        (AccountLogList client orgId userId opType bsType currency
          beginTime endTime page limit).err = some client.ErrServiceBusy ∧
        (AccountLogList client orgId userId opType bsType currency
          beginTime endTime page limit).logs =
          [⟨lit "baseServerSdk_AccountLogList", c.params,
            lit "unmarshal account list fail" ++ (client.respond c).1⟩]) ∧
      ((client.respond c).2 = none → ∀ v, unmarshalLogLists (client.respond c).1 = some v →
        (AccountLogList client orgId userId opType bsType currency
          beginTime endTime page limit).value = v ∧
        (AccountLogList client orgId userId opType bsType currency
          beginTime endTime page limit).err = none ∧
        (AccountLogList client orgId userId opType bsType currency
          beginTime endTime page limit).logs = []) := by
  unfold AccountLogList Client.respond
  rw [if_neg (by omega)]
  simp only []
  rcases hd : client.DoRequest client.AccountServerHost (lit "account") (lit "accountLogList") _
    with ⟨data, _ | err⟩
  · simp only []
    cases hu : unmarshalLogLists data
    · simp only []
      refine ⟨_, rfl, rfl, rfl, rfl, rfl, rfl, rfl, rfl, rfl, rfl, rfl, rfl, rfl, ?_, ?_, ?_⟩ <;> simp [hd, hu]
    · simp only []
      refine ⟨_, rfl, rfl, rfl, rfl, rfl, rfl, rfl, rfl, rfl, rfl, rfl, rfl, rfl, ?_, ?_, ?_⟩ <;> simp [hd, hu]
  · simp only []
    refine ⟨_, rfl, rfl, rfl, rfl, rfl, rfl, rfl, rfl, rfl, rfl, rfl, rfl, rfl, ?_, ?_, ?_⟩ <;> simp [hd]

theorem SumLog_rejected {Err : Type} (client : Client Err)
    (orgId userId opType bsType : Int)
    (currency : GoString) (beginTime endTime : Int)
    (h : orgId ≤ 0 ∨ userId ≤ 0 ∨ opType < 0) :
    (SumLog client orgId userId opType bsType
          currency beginTime endTime).err = some client.ErrInvalidParams ∧
    (SumLog client orgId userId opType bsType
          currency beginTime endTime).calls = [] ∧
    (SumLog client orgId userId opType bsType
          currency beginTime endTime).logs = [] ∧
    (SumLog client orgId userId opType bsType
          currency beginTime endTime).value = lit "0" := by
  unfold SumLog
  rw [if_pos h]
  exact ⟨rfl, rfl, rfl, rfl⟩

theorem SumLog_accepted {Err : Type} (client : Client Err)
    (orgId userId opType bsType : Int)
    (currency : GoString) (beginTime endTime : Int)
    (h1 : 0 < orgId) (h2 : 0 < userId) (h3 : 0 ≤ opType) :
    ∃ c : Call, (SumLog client orgId userId opType bsType
          currency beginTime endTime).calls = [c] ∧
      c.host = client.AccountServerHost ∧ c.service = lit "account" ∧
      c.method = lit "sumLog" ∧
      c.params.get (lit "orgId") = some (Itoa orgId) ∧
      c.params.get (lit "userId") = some (FormatInt userId) ∧
      c.params.get (lit "opType") = some (Itoa opType) ∧
      c.params.get (lit "bsType") = some (Itoa bsType) ∧
      c.params.get (lit "currency") = some (currency) ∧
      c.params.get (lit "beginTime") = some (Itoa beginTime) ∧
      c.params.get (lit "endTime") = some (Itoa endTime) ∧
      (∀ e, (client.respond c).2 = some e →
        (SumLog client orgId userId opType bsType
          currency beginTime endTime).value = lit "0" ∧
        (SumLog client orgId userId opType bsType
          currency beginTime endTime).err = some e ∧
        (SumLog client orgId userId opType bsType
          currency beginTime endTime).logs = []) ∧
      ((client.respond c).2 = none → unmarshalString (client.respond c).1 = none →
        (SumLog client orgId userId opType bsType
          currency beginTime endTime).value = lit "0" ∧
        (SumLog client orgId userId opType bsType
          currency beginTime endTime).err = some client.ErrServiceBusy ∧
        (SumLog client orgId userId opType bsType
          currency beginTime endTime).logs =
          [⟨lit "baseServerSdk_SumLog", c.params,
            lit "unmarshal sumAmount fail" ++ (client.respond c).1⟩]) ∧
      ((client.respond c).2 = none → ∀ v, unmarshalString (client.respond c).1 = some v →
        (SumLog client orgId userId opType bsType
          currency beginTime endTime).value = v ∧
        (SumLog client orgId userId opType bsType
          currency beginTime endTime).err = none ∧
        (SumLog client orgId userId opType bsType
          currency beginTime endTime).logs = []) := by
  unfold SumLog Client.respond
  rw [if_neg (by omega)]
  simp only []
  rcases hd : client.DoRequest client.AccountServerHost (lit "account") (lit "sumLog") _
    with ⟨data, _ | err⟩
  · simp only []
    cases hu : unmarshalString data
    · simp only []
      refine ⟨_, rfl, rfl, rfl, rfl, rfl, rfl, rfl, rfl, rfl, rfl, rfl, ?_, ?_, ?_⟩ <;> simp [hd, hu]
    · simp only []
      refine ⟨_, rfl, rfl, rfl, rfl, rfl, rfl, rfl, rfl, rfl, rfl, rfl, ?_, ?_, ?_⟩ <;> simp [hd, hu]
  · simp only []
    refine ⟨_, rfl, rfl, rfl, rfl, rfl, rfl, rfl, rfl, rfl, rfl, rfl, ?_, ?_, ?_⟩ <;> simp [hd]

theorem BatchOperateAmount_rejected {Err : Type} (client : Client Err)
    (orgId isAsync : Int)
    (details : Slice (Option TaskDetail)) (callback : Option TaskCallBack)
    (h : orgId ≤ 0 ∨ len details = 0) :
    (BatchOperateAmount client orgId isAsync details callback).err = some client.ErrInvalidParams ∧
    (BatchOperateAmount client orgId isAsync details callback).calls = [] ∧
    (BatchOperateAmount client orgId isAsync details callback).logs = [] ∧
    (BatchOperateAmount client orgId isAsync details callback).value = () := by
  unfold BatchOperateAmount
  rw [if_pos h]
  exact ⟨rfl, rfl, rfl, rfl⟩

theorem BatchOperateAmount_accepted {Err : Type} (client : Client Err)
    (orgId isAsync : Int)
    (details : Slice (Option TaskDetail)) (callback : Option TaskCallBack)
    (h1 : 0 < orgId) (h2 : 0 < len details) :
    ∃ c : Call, (BatchOperateAmount client orgId isAsync details callback).calls = [c] ∧
      c.host = client.AccountServerHost ∧ c.service = lit "account" ∧
      c.method = lit "batchOperateAmount" ∧
      c.params.get (lit "orgId") = some (Itoa orgId) ∧
      c.params.get (lit "isAsync") = some (Itoa isAsync) ∧
      c.params.get (lit "detail") = some (marshalTaskDetails details) ∧
      c.params.get (lit "callback") = some (marshalTaskCallBack callback) ∧
      (∀ e, (client.respond c).2 = some e →
        (BatchOperateAmount client orgId isAsync details callback).err = some e) ∧
      ((client.respond c).2 = none →
        (BatchOperateAmount client orgId isAsync details callback).err = none) ∧
      (BatchOperateAmount client orgId isAsync details callback).logs = [] := by
  unfold BatchOperateAmount Client.respond
  rw [if_neg (by omega)]
  simp only []
  rcases hd : client.DoRequest client.AccountServerHost (lit "account") (lit "batchOperateAmount") _
    with ⟨data, _ | err⟩
  · simp only []
    refine ⟨_, rfl, rfl, rfl, rfl, rfl, rfl, rfl, rfl, ?_, ?_, ?_⟩ <;> simp [hd]
  · simp only []
    refine ⟨_, rfl, rfl, rfl, rfl, rfl, rfl, rfl, rfl, ?_, ?_, ?_⟩ <;> simp [hd]

/-! ## The claims -/

/-- C1: every operation called with a required numeric id that is zero or negative
(orgId; userId for CreateAccount, AccountLogList and SumLog; accountId for UpdateStatus
and OperateAmount) returns `ErrInvalidParams` and makes no transport call, whatever
the transport and the other arguments. -/
theorem invalid_id_rejected {Err : Type} (client : Client Err) :
    (∀ orgId userId currency, orgId ≤ 0 ∨ userId ≤ 0 →
      (CreateAccount client orgId userId currency).err = some client.ErrInvalidParams ∧
      (CreateAccount client orgId userId currency).calls = []) ∧
    (∀ orgId userIds currency, orgId ≤ 0 →
      (AccountInfo client orgId userIds currency).err = some client.ErrInvalidParams ∧
      (AccountInfo client orgId userIds currency).calls = []) ∧
    (∀ orgId accountId status, orgId ≤ 0 ∨ accountId ≤ 0 →
      (UpdateStatus client orgId accountId status).err = some client.ErrInvalidParams ∧
      (UpdateStatus client orgId accountId status).calls = []) ∧
    (∀ orgId accountId opType bsType allowNegative amount detail ext callback,
      orgId ≤ 0 ∨ accountId ≤ 0 →
      (OperateAmount client orgId accountId opType bsType allowNegative amount detail ext
        callback).err = some client.ErrInvalidParams ∧
      (OperateAmount client orgId accountId opType bsType allowNegative amount detail ext
        callback).calls = []) ∧
    (∀ orgId userId opType bsType currency beginTime endTime page limit,
      orgId ≤ 0 ∨ userId ≤ 0 →
      (AccountLogList client orgId userId opType bsType currency beginTime endTime page
        limit).err = some client.ErrInvalidParams ∧
      (AccountLogList client orgId userId opType bsType currency beginTime endTime page
        limit).calls = []) ∧
    (∀ orgId userId opType bsType currency beginTime endTime, orgId ≤ 0 ∨ userId ≤ 0 →
      (SumLog client orgId userId opType bsType currency beginTime endTime).err
        = some client.ErrInvalidParams ∧
      (SumLog client orgId userId opType bsType currency beginTime endTime).calls = []) ∧
    (∀ orgId isAsync details callback, orgId ≤ 0 →
      (BatchOperateAmount client orgId isAsync details callback).err
        = some client.ErrInvalidParams ∧
      (BatchOperateAmount client orgId isAsync details callback).calls = []) := by
  refine ⟨?_, ?_, ?_, ?_, ?_, ?_, ?_⟩
  · intro orgId userId currency h
    have := CreateAccount_rejected client orgId userId currency
      (h.elim Or.inl fun h => Or.inr (Or.inl h))
    exact ⟨this.1, this.2.1⟩
  · intro orgId userIds currency h
    have := AccountInfo_rejected client orgId userIds currency (Or.inl h)
    exact ⟨this.1, this.2.1⟩
  · intro orgId accountId status h
    have := UpdateStatus_rejected client orgId accountId status
      (h.elim Or.inl fun h => Or.inr (Or.inl h))
    exact ⟨this.1, this.2.1⟩
  · intro orgId accountId opType bsType allowNegative amount detail ext callback h
    have := OperateAmount_rejected client orgId accountId opType bsType allowNegative amount
      detail ext callback (h.elim Or.inl fun h => Or.inr (Or.inl h))
    exact ⟨this.1, this.2.1⟩
  · intro orgId userId opType bsType currency beginTime endTime page limit h
    have := AccountLogList_rejected client orgId userId opType bsType currency beginTime
      endTime page limit (h.elim Or.inl fun h => Or.inr (Or.inl h))
    exact ⟨this.1, this.2.1⟩
  · intro orgId userId opType bsType currency beginTime endTime h
    have := SumLog_rejected client orgId userId opType bsType currency beginTime endTime
      (h.elim Or.inl fun h => Or.inr (Or.inl h))
    exact ⟨this.1, this.2.1⟩
  · intro orgId isAsync details callback h
    have := BatchOperateAmount_rejected client orgId isAsync details callback (Or.inl h)
    exact ⟨this.1, this.2.1⟩

/-- Witness of C1: the seven operations on a stub transport, each with one id at zero. -/
theorem invalid_id_rejected_witness :
    ((CreateAccount (stubClient ([], none)) 0 7 (some [lit "BTC"])).err = some 1001 ∧
      (CreateAccount (stubClient ([], none)) 0 7 (some [lit "BTC"])).calls = []) ∧
    ((AccountInfo (stubClient ([], none)) (-1) (some [7]) (lit "BTC")).err = some 1001 ∧
      (AccountInfo (stubClient ([], none)) (-1) (some [7]) (lit "BTC")).calls = []) ∧
    ((UpdateStatus (stubClient ([], none)) 1 0 2).err = some 1001 ∧
      (UpdateStatus (stubClient ([], none)) 1 0 2).calls = []) ∧
    ((OperateAmount (stubClient ([], none)) 1 0 5 1 0 (lit "1.5") [] [] []).err = some 1001 ∧
      (OperateAmount (stubClient ([], none)) 1 0 5 1 0 (lit "1.5") [] [] []).calls = []) ∧
    ((AccountLogList (stubClient ([], none)) 1 0 0 0 [] 0 0 1 10).err = some 1001 ∧
      (AccountLogList (stubClient ([], none)) 1 0 0 0 [] 0 0 1 10).calls = []) ∧
    ((SumLog (stubClient ([], none)) 0 7 0 0 [] 0 0).err = some 1001 ∧
      (SumLog (stubClient ([], none)) 0 7 0 0 [] 0 0).calls = []) ∧
    ((BatchOperateAmount (stubClient ([], none)) 0 0 (some [none]) none).err = some 1001 ∧
      (BatchOperateAmount (stubClient ([], none)) 0 0 (some [none]) none).calls = []) :=
  ⟨(invalid_id_rejected (stubClient ([], none))).1 0 7 (some [lit "BTC"]) (Or.inl (by decide)),
   (invalid_id_rejected (stubClient ([], none))).2.1 (-1) (some [7]) (lit "BTC") (by decide),
   (invalid_id_rejected (stubClient ([], none))).2.2.1 1 0 2 (Or.inr (by decide)),
   (invalid_id_rejected (stubClient ([], none))).2.2.2.1 1 0 5 1 0 (lit "1.5") [] [] []
     (Or.inr (by decide)),
   (invalid_id_rejected (stubClient ([], none))).2.2.2.2.1 1 0 0 0 [] 0 0 1 10
     (Or.inr (by decide)),
   (invalid_id_rejected (stubClient ([], none))).2.2.2.2.2.1 0 7 0 0 [] 0 0 (Or.inl (by decide)),
   (invalid_id_rejected (stubClient ([], none))).2.2.2.2.2.2 0 0 (some [none]) none (by decide)⟩

/-- C2: when an operation accepts its arguments it makes one transport call, and if
that call returns an error the operation returns that very error; CreateAccount,
AccountInfo and AccountLogList return a nil list with it. -/
theorem transport_error_propagated {Err : Type} (client : Client Err) :
    (∀ orgId userId currency, 0 < orgId → 0 < userId → 0 < len currency →
      ∃ c, (CreateAccount client orgId userId currency).calls = [c] ∧
        ∀ e, (client.respond c).2 = some e →
          (CreateAccount client orgId userId currency).err = some e ∧
          (CreateAccount client orgId userId currency).value = none) ∧
    (∀ orgId userIds currency, 0 < orgId → 0 < len userIds →
      ∃ c, (AccountInfo client orgId userIds currency).calls = [c] ∧
        ∀ e, (client.respond c).2 = some e →
          (AccountInfo client orgId userIds currency).err = some e ∧
          (AccountInfo client orgId userIds currency).value = none) ∧
    (∀ orgId accountId status, 0 < orgId → 0 < accountId → 0 < status →
      ∃ c, (UpdateStatus client orgId accountId status).calls = [c] ∧
        ∀ e, (client.respond c).2 = some e →
          (UpdateStatus client orgId accountId status).err = some e) ∧
    (∀ orgId accountId opType bsType allowNegative amount detail ext callback,
      0 < orgId → 0 < accountId → 0 < opType → 0 < bsType → amount ≠ [] →
      ∃ c, (OperateAmount client orgId accountId opType bsType allowNegative amount detail ext
          callback).calls = [c] ∧
        ∀ e, (client.respond c).2 = some e →
          (OperateAmount client orgId accountId opType bsType allowNegative amount detail ext
            callback).err = some e) ∧
    (∀ orgId userId opType bsType currency beginTime endTime page limit,
      0 < orgId → 0 < userId → 0 ≤ opType → 0 < page → 0 < limit → limit ≤ 1000 →
      ∃ c, (AccountLogList client orgId userId opType bsType currency beginTime endTime page
          limit).calls = [c] ∧
        ∀ e, (client.respond c).2 = some e →
          (AccountLogList client orgId userId opType bsType currency beginTime endTime page
            limit).err = some e ∧
          (AccountLogList client orgId userId opType bsType currency beginTime endTime page
            limit).value = none) ∧
    (∀ orgId userId opType bsType currency beginTime endTime,
      0 < orgId → 0 < userId → 0 ≤ opType →
      ∃ c, (SumLog client orgId userId opType bsType currency beginTime endTime).calls = [c] ∧
        ∀ e, (client.respond c).2 = some e →
          (SumLog client orgId userId opType bsType currency beginTime endTime).err = some e) ∧
    (∀ orgId isAsync details callback, 0 < orgId → 0 < len details →
      ∃ c, (BatchOperateAmount client orgId isAsync details callback).calls = [c] ∧
        ∀ e, (client.respond c).2 = some e →
          (BatchOperateAmount client orgId isAsync details callback).err = some e) := by
  refine ⟨?_, ?_, ?_, ?_, ?_, ?_, ?_⟩
  · intro orgId userId currency h1 h2 h3
    obtain ⟨c, hc, h⟩ := CreateAccount_accepted client orgId userId currency h1 h2 h3
    exact ⟨c, hc, fun e he => ⟨(h.2.2.2.2.2.2.1 e he).2.1, (h.2.2.2.2.2.2.1 e he).1⟩⟩
  · intro orgId userIds currency h1 h2
    obtain ⟨c, hc, h⟩ := AccountInfo_accepted client orgId userIds currency h1 h2
    exact ⟨c, hc, fun e he => ⟨(h.2.2.2.2.2.2.1 e he).2.1, (h.2.2.2.2.2.2.1 e he).1⟩⟩
  · intro orgId accountId status h1 h2 h3
    obtain ⟨c, hc, h⟩ := UpdateStatus_accepted client orgId accountId status h1 h2 h3
    exact ⟨c, hc, h.2.2.2.2.2.2.1⟩
  · intro orgId accountId opType bsType allowNegative amount detail ext callback h1 h2 h3 h4 h5
    obtain ⟨c, hc, h⟩ := OperateAmount_accepted client orgId accountId opType bsType
      allowNegative amount detail ext callback h1 h2 h3 h4 h5
    exact ⟨c, hc, h.2.2.2.2.2.2.2.2.2.2.2.2.1⟩
  · intro orgId userId opType bsType currency beginTime endTime page limit h1 h2 h3 h4 h5 h6
    obtain ⟨c, hc, h⟩ := AccountLogList_accepted client orgId userId opType bsType currency
      beginTime endTime page limit h1 h2 h3 h4 h5 h6
    exact ⟨c, hc, fun e he => ⟨(h.2.2.2.2.2.2.2.2.2.2.2.2.1 e he).2.1,
      (h.2.2.2.2.2.2.2.2.2.2.2.2.1 e he).1⟩⟩
  · intro orgId userId opType bsType currency beginTime endTime h1 h2 h3
    obtain ⟨c, hc, h⟩ := SumLog_accepted client orgId userId opType bsType currency
      beginTime endTime h1 h2 h3
    exact ⟨c, hc, fun e he => (h.2.2.2.2.2.2.2.2.2.2.1 e he).2.1⟩
  · intro orgId isAsync details callback h1 h2
    obtain ⟨c, hc, h⟩ := BatchOperateAmount_accepted client orgId isAsync details callback h1 h2
    exact ⟨c, hc, h.2.2.2.2.2.2.2.1⟩

/-- Witness of C2: on a transport that fails with error 7, each operation called with
accepted arguments returns error 7. -/
theorem transport_error_propagated_witness :
    (CreateAccount (stubClient ([], some 7)) 1 7 (some [lit "BTC"])).err = some 7 ∧
    (AccountInfo (stubClient ([], some 7)) 1 (some [7]) (lit "BTC")).err = some 7 ∧
    (UpdateStatus (stubClient ([], some 7)) 1 3 2).err = some 7 ∧
    (OperateAmount (stubClient ([], some 7)) 1 3 5 1 0 (lit "1.5") [] [] []).err = some 7 ∧
    (AccountLogList (stubClient ([], some 7)) 1 7 0 0 [] 0 0 1 10).value = none ∧
    (SumLog (stubClient ([], some 7)) 1 7 0 0 [] 0 0).err = some 7 ∧
    (BatchOperateAmount (stubClient ([], some 7)) 1 0 (some [none]) none).err = some 7 :=
  ⟨match (transport_error_propagated (stubClient ([], some 7))).1 1 7 (some [lit "BTC"])
      (by decide) (by decide) (by decide) with
    | ⟨_, _, h⟩ => (h 7 rfl).1,
   match (transport_error_propagated (stubClient ([], some 7))).2.1 1 (some [7]) (lit "BTC")
      (by decide) (by decide) with
    | ⟨_, _, h⟩ => (h 7 rfl).1,
   match (transport_error_propagated (stubClient ([], some 7))).2.2.1 1 3 2
      (by decide) (by decide) (by decide) with
    | ⟨_, _, h⟩ => h 7 rfl,
   match (transport_error_propagated (stubClient ([], some 7))).2.2.2.1 1 3 5 1 0 (lit "1.5")
      [] [] [] (by decide) (by decide) (by decide) (by decide) (by decide) with
    | ⟨_, _, h⟩ => h 7 rfl,
   match (transport_error_propagated (stubClient ([], some 7))).2.2.2.2.1 1 7 0 0 [] 0 0 1 10
      (by decide) (by decide) (by decide) (by decide) (by decide) (by decide) with
    | ⟨_, _, h⟩ => (h 7 rfl).2,
   match (transport_error_propagated (stubClient ([], some 7))).2.2.2.2.2.1 1 7 0 0 [] 0 0
      (by decide) (by decide) (by decide) with
    | ⟨_, _, h⟩ => h 7 rfl,
   match (transport_error_propagated (stubClient ([], some 7))).2.2.2.2.2.2 1 0 (some [none])
      none (by decide) (by decide) with
    | ⟨_, _, h⟩ => h 7 rfl⟩

/-- Counterexample to C3 as stated: SumLog called with orgId 0 returns the error
`ErrInvalidParams` together with the amount "0", a non-empty string value. -/
theorem sumLog_returns_value_with_error :
    (SumLog (stubClient ([], none)) 0 7 0 0 [] 0 0).err = some 1001 ∧
    (SumLog (stubClient ([], none)) 0 7 0 0 [] 0 0).value = lit "0" ∧
    (SumLog (stubClient ([], none)) 0 7 0 0 [] 0 0).value ≠ [] := by
  decide

/-- C3, amended: CreateAccount, AccountInfo and AccountLogList return a nil list whenever
they return an error, SumLog returns the default amount "0" whenever it returns an
error, and whenever one of the four returns no error it made one transport call, the
call succeeded and the returned value is the response decoded. -/
theorem error_or_decoded_result {Err : Type} (client : Client Err) :
    (∀ orgId userId currency,
      ((CreateAccount client orgId userId currency).err ≠ none →
        (CreateAccount client orgId userId currency).value = none) ∧
      ((CreateAccount client orgId userId currency).err = none →
        ∃ c, (CreateAccount client orgId userId currency).calls = [c] ∧
          (client.respond c).2 = none ∧
          unmarshalAccounts (client.respond c).1
            = some (CreateAccount client orgId userId currency).value)) ∧
    (∀ orgId userIds currency,
      ((AccountInfo client orgId userIds currency).err ≠ none →
        (AccountInfo client orgId userIds currency).value = none) ∧
      ((AccountInfo client orgId userIds currency).err = none →
        ∃ c, (AccountInfo client orgId userIds currency).calls = [c] ∧
          (client.respond c).2 = none ∧
          unmarshalAccounts (client.respond c).1
            = some (AccountInfo client orgId userIds currency).value)) ∧
    (∀ orgId userId opType bsType currency beginTime endTime page limit,
      ((AccountLogList client orgId userId opType bsType currency beginTime endTime page
          limit).err ≠ none →
        (AccountLogList client orgId userId opType bsType currency beginTime endTime page
          limit).value = none) ∧
      ((AccountLogList client orgId userId opType bsType currency beginTime endTime page
          limit).err = none →
        ∃ c, (AccountLogList client orgId userId opType bsType currency beginTime endTime page
            limit).calls = [c] ∧
          (client.respond c).2 = none ∧
          unmarshalLogLists (client.respond c).1
            = some (AccountLogList client orgId userId opType bsType currency beginTime
                endTime page limit).value)) ∧
    (∀ orgId userId opType bsType currency beginTime endTime,
      ((SumLog client orgId userId opType bsType currency beginTime endTime).err ≠ none →
        (SumLog client orgId userId opType bsType currency beginTime endTime).value
          = lit "0") ∧
      ((SumLog client orgId userId opType bsType currency beginTime endTime).err = none →
        ∃ c, (SumLog client orgId userId opType bsType currency beginTime endTime).calls = [c] ∧
          (client.respond c).2 = none ∧
          unmarshalString (client.respond c).1
            = some (SumLog client orgId userId opType bsType currency beginTime
                endTime).value)) := by
  refine ⟨?_, ?_, ?_, ?_⟩
  · intro orgId userId currency
    by_cases hv : orgId ≤ 0 ∨ userId ≤ 0 ∨ len currency = 0
    · have h := CreateAccount_rejected client orgId userId currency hv
      exact ⟨fun _ => h.2.2.2, fun he => by rw [h.1] at he; simp at he⟩
    · obtain ⟨c, hc, h⟩ := CreateAccount_accepted client orgId userId currency
        (by omega) (by omega) (by omega)
      obtain ⟨h1, h2, h3⟩ := h.2.2.2.2.2.2
      rcases hr : (client.respond c).2 with _ | e
      · rcases hu : unmarshalAccounts (client.respond c).1 with _ | v
        · have := h2 hr hu
          exact ⟨fun _ => this.1, fun he => by rw [this.2.1] at he; simp at he⟩
        · have := h3 hr v hu
          exact ⟨fun he => absurd this.2.1 he,
            fun _ => ⟨c, hc, hr, by rw [this.1]; exact hu⟩⟩
      · have := h1 e hr
        exact ⟨fun _ => this.1, fun he => by rw [this.2.1] at he; simp at he⟩
  · intro orgId userIds currency
    by_cases hv : orgId ≤ 0 ∨ len userIds = 0
    · have h := AccountInfo_rejected client orgId userIds currency hv
      exact ⟨fun _ => h.2.2.2, fun he => by rw [h.1] at he; simp at he⟩
    · obtain ⟨c, hc, h⟩ := AccountInfo_accepted client orgId userIds currency
        (by omega) (by omega)
      obtain ⟨h1, h2, h3⟩ := h.2.2.2.2.2.2
      rcases hr : (client.respond c).2 with _ | e
      · rcases hu : unmarshalAccounts (client.respond c).1 with _ | v
        · have := h2 hr hu
          exact ⟨fun _ => this.1, fun he => by rw [this.2.1] at he; simp at he⟩
        · have := h3 hr v hu
          exact ⟨fun he => absurd this.2.1 he,
            fun _ => ⟨c, hc, hr, by rw [this.1]; exact hu⟩⟩
      · have := h1 e hr
        exact ⟨fun _ => this.1, fun he => by rw [this.2.1] at he; simp at he⟩
  · intro orgId userId opType bsType currency beginTime endTime page limit
    by_cases hv : orgId ≤ 0 ∨ userId ≤ 0 ∨ opType < 0 ∨ page ≤ 0 ∨ limit ≤ 0 ∨ 1000 < limit
    · have h := AccountLogList_rejected client orgId userId opType bsType currency beginTime
        endTime page limit hv
      exact ⟨fun _ => h.2.2.2, fun he => by rw [h.1] at he; simp at he⟩
    · obtain ⟨c, hc, h⟩ := AccountLogList_accepted client orgId userId opType bsType currency
        beginTime endTime page limit (by omega) (by omega) (by omega) (by omega) (by omega)
        (by omega)
      obtain ⟨h1, h2, h3⟩ := h.2.2.2.2.2.2.2.2.2.2.2.2
      rcases hr : (client.respond c).2 with _ | e
      · rcases hu : unmarshalLogLists (client.respond c).1 with _ | v
        · have := h2 hr hu
          exact ⟨fun _ => this.1, fun he => by rw [this.2.1] at he; simp at he⟩
        · have := h3 hr v hu
          exact ⟨fun he => absurd this.2.1 he,
            fun _ => ⟨c, hc, hr, by rw [this.1]; exact hu⟩⟩
      · have := h1 e hr
        exact ⟨fun _ => this.1, fun he => by rw [this.2.1] at he; simp at he⟩
  · intro orgId userId opType bsType currency beginTime endTime
    by_cases hv : orgId ≤ 0 ∨ userId ≤ 0 ∨ opType < 0
    · have h := SumLog_rejected client orgId userId opType bsType currency beginTime
        endTime hv
      exact ⟨fun _ => h.2.2.2, fun he => by rw [h.1] at he; simp at he⟩
    · obtain ⟨c, hc, h⟩ := SumLog_accepted client orgId userId opType bsType currency
        beginTime endTime (by omega) (by omega) (by omega)
      obtain ⟨h1, h2, h3⟩ := h.2.2.2.2.2.2.2.2.2.2
      rcases hr : (client.respond c).2 with _ | e
      · rcases hu : unmarshalString (client.respond c).1 with _ | v
        · have := h2 hr hu
          exact ⟨fun _ => this.1, fun he => by rw [this.2.1] at he; simp at he⟩
        · have := h3 hr v hu
          exact ⟨fun he => absurd this.2.1 he,
            fun _ => ⟨c, hc, hr, by rw [this.1]; exact hu⟩⟩
      · have := h1 e hr
        exact ⟨fun _ => this.1, fun he => by rw [this.2.1] at he; simp at he⟩

/-- Witness of C3, amended: AccountInfo on a transport whose body is not JSON returns
an error and therefore a nil list; SumLog on a transport failing with error 7 returns
"0". -/
theorem error_or_decoded_result_witness :
    (AccountInfo (stubClient (lit "oops", none)) 1 (some [7]) (lit "BTC")).err ≠ none ∧
    (AccountInfo (stubClient (lit "oops", none)) 1 (some [7]) (lit "BTC")).value = none ∧
    (SumLog (stubClient ([], some 7)) 1 7 0 0 [] 0 0).err ≠ none ∧
    (SumLog (stubClient ([], some 7)) 1 7 0 0 [] 0 0).value = lit "0" :=
  ⟨by decide,
   ((error_or_decoded_result (stubClient (lit "oops", none))).2.1 1 (some [7]) (lit "BTC")).1
     (by decide),
   by decide,
   ((error_or_decoded_result (stubClient ([], some 7))).2.2.2 1 7 0 0 [] 0 0).1 (by decide)⟩

/-- Counterexample to C4 as stated: for the currencies BTC and ETH CreateAccount sends
the text `BTC,ETH` under "currency", which is not JSON and differs from the JSON
encoding of the list. -/
theorem createAccount_currency_is_not_json :
    (CreateAccount (stubClient ([], none)) 1 7 (some [lit "BTC", lit "ETH"])).calls.map
        (fun c => c.params.get (lit "currency")) = [some (lit "BTC,ETH")] ∧
    Valid (lit "BTC,ETH") = false ∧
    encodeSlice appendString (some [lit "BTC", lit "ETH"]) ≠ lit "BTC,ETH" := by
  decide

/-- C4, amended: with accepted arguments AccountInfo sends under "userIds", and
BatchOperateAmount under "detail", one string that is the JSON encoding of the list, a
JSON array of its elements; CreateAccount sends under "currency" one string that is the
currencies joined by commas, which is never the JSON encoding of the currency list. -/
theorem list_parameters_encoding {Err : Type} (client : Client Err) :
    (∀ orgId userIds currency, 0 < orgId → 0 < len userIds →
      ∃ c l, userIds = some l ∧ (AccountInfo client orgId userIds currency).calls = [c] ∧
        c.params.get (lit "userIds") = some (marshalInt64s userIds) ∧
        parseJSON (marshalInt64s userIds) = some (JSON.arr (l.map intJSON))) ∧
    (∀ orgId isAsync details callback, 0 < orgId → 0 < len details →
      ∃ c l, details = some l ∧
        (BatchOperateAmount client orgId isAsync details callback).calls = [c] ∧
        c.params.get (lit "detail") = some (marshalTaskDetails details) ∧
        parseJSON (marshalTaskDetails details)
          = some (JSON.arr (l.map (ptrJSON taskDetailJSON)))) ∧
    (∀ orgId userId currency, 0 < orgId → 0 < userId → 0 < len currency →
      ∃ c, (CreateAccount client orgId userId currency).calls = [c] ∧
        c.params.get (lit "currency") = some (Join currency (lit ",")) ∧
        Join currency (lit ",") ≠ encodeSlice appendString currency) := by
  refine ⟨?_, ?_, ?_⟩
  · intro orgId userIds currency h1 h2
    obtain ⟨c, hc, h⟩ := AccountInfo_accepted client orgId userIds currency h1 h2
    cases userIds with
    | none => simp [len] at h2
    | some l => exact ⟨c, l, rfl, hc, h.2.2.2.2.1, parseJSON_marshalInt64s (some l)⟩
  · intro orgId isAsync details callback h1 h2
    obtain ⟨c, hc, h⟩ := BatchOperateAmount_accepted client orgId isAsync details callback h1 h2
    cases details with
    | none => simp [len] at h2
    | some l => exact ⟨c, l, rfl, hc, h.2.2.2.2.2.1, parseJSON_marshalTaskDetails (some l)⟩
  · intro orgId userId currency h1 h2 h3
    obtain ⟨c, hc, h⟩ := CreateAccount_accepted client orgId userId currency h1 h2 h3
    exact ⟨c, hc, h.2.2.2.2.2.1, Join_ne_encodeSlice currency⟩

/-- Witness of C4, amended: the user ids 7 and 8, one task detail, two currencies. -/
theorem list_parameters_encoding_witness :
    (∃ c l, some [7, 8] = some l ∧
      (AccountInfo (stubClient ([], none)) 1 (some [7, 8]) (lit "BTC")).calls = [c] ∧
      c.params.get (lit "userIds") = some (marshalInt64s (some [7, 8])) ∧
      parseJSON (marshalInt64s (some [7, 8])) = some (JSON.arr (l.map intJSON))) ∧
    (∃ c l, some [some ⟨1, 2, 3, 7, lit "BTC", 0, lit "1.5", [], []⟩] = some l ∧
      (BatchOperateAmount (stubClient ([], none)) 1 0
        (some [some ⟨1, 2, 3, 7, lit "BTC", 0, lit "1.5", [], []⟩]) none).calls = [c] ∧
      c.params.get (lit "detail")
        = some (marshalTaskDetails
            (some [some ⟨1, 2, 3, 7, lit "BTC", 0, lit "1.5", [], []⟩])) ∧
      parseJSON (marshalTaskDetails (some [some ⟨1, 2, 3, 7, lit "BTC", 0, lit "1.5", [], []⟩]))
        = some (JSON.arr (l.map (ptrJSON taskDetailJSON)))) ∧
    (∃ c,
      (CreateAccount (stubClient ([], none)) 1 7 (some [lit "BTC", lit "ETH"])).calls = [c] ∧
      c.params.get (lit "currency") = some (Join (some [lit "BTC", lit "ETH"]) (lit ",")) ∧
      Join (some [lit "BTC", lit "ETH"]) (lit ",")
        ≠ encodeSlice appendString (some [lit "BTC", lit "ETH"])) :=
  ⟨(list_parameters_encoding (stubClient ([], none))).1 1 (some [7, 8]) (lit "BTC")
      (by decide) (by decide),
   (list_parameters_encoding (stubClient ([], none))).2.1 1 0
      (some [some ⟨1, 2, 3, 7, lit "BTC", 0, lit "1.5", [], []⟩]) none (by decide) (by decide),
   (list_parameters_encoding (stubClient ([], none))).2.2 1 7 (some [lit "BTC", lit "ETH"])
      (by decide) (by decide) (by decide)⟩

/-- C5: whenever SumLog returns an error the amount it returns is the string "0", which
is not empty. The three ways: rejected arguments give `ErrInvalidParams` and "0" without
a transport call; accepted arguments give exactly one transport call, of method
"sumLog", and when that call fails SumLog returns the call's own error and "0", and
when it succeeds with bytes that do not decode as a JSON string SumLog returns
`ErrServiceBusy` and "0". -/
theorem sumLog_default_amount {Err : Type} (client : Client Err)
    (orgId userId opType bsType : Int) (currency : GoString) (beginTime endTime : Int) :
    ((SumLog client orgId userId opType bsType currency beginTime endTime).err ≠ none →
      (SumLog client orgId userId opType bsType currency beginTime endTime).value = lit "0" ∧
      (SumLog client orgId userId opType bsType currency beginTime endTime).value ≠ []) ∧
    (orgId ≤ 0 ∨ userId ≤ 0 ∨ opType < 0 →
      (SumLog client orgId userId opType bsType currency beginTime endTime).err
        = some client.ErrInvalidParams ∧
      (SumLog client orgId userId opType bsType currency beginTime endTime).value = lit "0" ∧
      (SumLog client orgId userId opType bsType currency beginTime endTime).calls = []) ∧
    (0 < orgId → 0 < userId → 0 ≤ opType →
      ∃ c, (SumLog client orgId userId opType bsType currency beginTime endTime).calls = [c] ∧
        c.method = lit "sumLog" ∧
        (∀ e, (client.respond c).2 = some e →
          (SumLog client orgId userId opType bsType currency beginTime endTime).err = some e ∧
          (SumLog client orgId userId opType bsType currency beginTime endTime).value
            = lit "0") ∧
        ((client.respond c).2 = none → unmarshalString (client.respond c).1 = none →
          (SumLog client orgId userId opType bsType currency beginTime endTime).err
            = some client.ErrServiceBusy ∧
          (SumLog client orgId userId opType bsType currency beginTime endTime).value
            = lit "0")) := by
  have hne : lit "0" ≠ ([] : GoString) := by decide
  have hrej : orgId ≤ 0 ∨ userId ≤ 0 ∨ opType < 0 →
      (SumLog client orgId userId opType bsType currency beginTime endTime).err
        = some client.ErrInvalidParams ∧
      (SumLog client orgId userId opType bsType currency beginTime endTime).value = lit "0" ∧
      (SumLog client orgId userId opType bsType currency beginTime endTime).calls = [] := by
    intro hv
    have h := SumLog_rejected client orgId userId opType bsType currency beginTime endTime hv
    exact ⟨h.1, h.2.2.2, h.2.1⟩
  have hacc : 0 < orgId → 0 < userId → 0 ≤ opType →
      ∃ c, (SumLog client orgId userId opType bsType currency beginTime endTime).calls = [c] ∧
        c.method = lit "sumLog" ∧
        (∀ e, (client.respond c).2 = some e →
          (SumLog client orgId userId opType bsType currency beginTime endTime).err = some e ∧
          (SumLog client orgId userId opType bsType currency beginTime endTime).value
            = lit "0") ∧
        ((client.respond c).2 = none → unmarshalString (client.respond c).1 = none →
          (SumLog client orgId userId opType bsType currency beginTime endTime).err
            = some client.ErrServiceBusy ∧
          (SumLog client orgId userId opType bsType currency beginTime endTime).value
            = lit "0") := by
    intro a1 a2 a3
    obtain ⟨c, hc, h⟩ := SumLog_accepted client orgId userId opType bsType currency
      beginTime endTime a1 a2 a3
    obtain ⟨h1, h2, _⟩ := h.2.2.2.2.2.2.2.2.2.2
    exact ⟨c, hc, h.2.2.1, fun e he => ⟨(h1 e he).2.1, (h1 e he).1⟩,
      fun hr hu => ⟨(h2 hr hu).2.1, (h2 hr hu).1⟩⟩
  refine ⟨?_, hrej, hacc⟩
  intro he
  by_cases hv : orgId ≤ 0 ∨ userId ≤ 0 ∨ opType < 0
  · have h := hrej hv
    exact ⟨h.2.1, by rw [h.2.1]; exact hne⟩
  · obtain ⟨c, hc, h⟩ := SumLog_accepted client orgId userId opType bsType currency
      beginTime endTime (by omega) (by omega) (by omega)
    obtain ⟨h1, h2, h3⟩ := h.2.2.2.2.2.2.2.2.2.2
    rcases hr : (client.respond c).2 with _ | e
    · rcases hu : unmarshalString (client.respond c).1 with _ | v
      · have := h2 hr hu
        exact ⟨this.1, by rw [this.1]; exact hne⟩
      · exact absurd (h3 hr v hu).2.1 he
    · have := h1 e hr
      exact ⟨this.1, by rw [this.1]; exact hne⟩

/-- Witness of C5: SumLog on a transport failing with error 7 makes its one call and
returns error 7 with "0"; on a transport that succeeds with a body that is not JSON it
returns `ErrServiceBusy` with "0"; with orgId 0 it returns `ErrInvalidParams` with "0"
and makes no call. -/
theorem sumLog_default_amount_witness :
    ((SumLog (stubClient ([], some 7)) 1 7 0 0 [] 0 0).value = lit "0" ∧
      (SumLog (stubClient ([], some 7)) 1 7 0 0 [] 0 0).value ≠ []) ∧
    (∃ c, (SumLog (stubClient ([], some 7)) 1 7 0 0 [] 0 0).calls = [c] ∧
      c.method = lit "sumLog" ∧
      (SumLog (stubClient ([], some 7)) 1 7 0 0 [] 0 0).err = some 7 ∧
      (SumLog (stubClient ([], some 7)) 1 7 0 0 [] 0 0).value = lit "0") ∧
    ((SumLog (stubClient (lit "oops", none)) 1 7 0 0 [] 0 0).err = some 1000 ∧
      (SumLog (stubClient (lit "oops", none)) 1 7 0 0 [] 0 0).value = lit "0") ∧
    ((SumLog (stubClient ([], some 7)) 0 7 0 0 [] 0 0).err = some 1001 ∧
      (SumLog (stubClient ([], some 7)) 0 7 0 0 [] 0 0).value = lit "0" ∧
      (SumLog (stubClient ([], some 7)) 0 7 0 0 [] 0 0).calls = []) :=
  ⟨(sumLog_default_amount (stubClient ([], some 7)) 1 7 0 0 [] 0 0).1 (by decide),
   match (sumLog_default_amount (stubClient ([], some 7)) 1 7 0 0 [] 0 0).2.2
      (by decide) (by decide) (by decide) with
    | ⟨c, hc, hm, h, _⟩ => ⟨c, hc, hm, h 7 rfl⟩,
   match (sumLog_default_amount (stubClient (lit "oops", none)) 1 7 0 0 [] 0 0).2.2
      (by decide) (by decide) (by decide) with
    | ⟨_, _, _, _, h⟩ => h rfl rfl,
   (sumLog_default_amount (stubClient ([], some 7)) 0 7 0 0 [] 0 0).2.1 (Or.inl (by decide))⟩

/-- C6: for AccountLogList with orgId > 0, userId > 0, opType ≥ 0 and page ≥ 1, a limit
above 1000 or at most 0 gives `ErrInvalidParams` without a transport call, and a limit
from 1 to 1000 gives exactly one transport call, of method "accountLogList", whose
"limit" parameter is the base-10 text of the limit. -/
theorem accountLogList_limit {Err : Type} (client : Client Err)
    (orgId userId opType bsType : Int) (currency : GoString)
    (beginTime endTime page limit : Int)
    (h1 : 0 < orgId) (h2 : 0 < userId) (h3 : 0 ≤ opType) (h4 : 1 ≤ page) :
    (1000 < limit ∨ limit ≤ 0 →
      (AccountLogList client orgId userId opType bsType currency beginTime endTime page
        limit).err = some client.ErrInvalidParams ∧
      (AccountLogList client orgId userId opType bsType currency beginTime endTime page
        limit).calls = []) ∧
    (1 ≤ limit ∧ limit ≤ 1000 →
      ∃ c, (AccountLogList client orgId userId opType bsType currency beginTime endTime page
          limit).calls = [c] ∧
        c.method = lit "accountLogList" ∧
        c.params.get (lit "limit") = some (Itoa limit) ∧
        ParseInt (Itoa limit) = some limit) := by
  constructor
  · intro h
    have := AccountLogList_rejected client orgId userId opType bsType currency beginTime
      endTime page limit (by omega)
    exact ⟨this.1, this.2.1⟩
  · intro h
    obtain ⟨c, hc, hh⟩ := AccountLogList_accepted client orgId userId opType bsType currency
      beginTime endTime page limit h1 h2 h3 (by omega) (by omega) (by omega)
    exact ⟨c, hc, hh.2.2.1, hh.2.2.2.2.2.2.2.2.2.2.2.1,
      ParseInt_FormatInt limit (by unfold InRange64; omega)⟩

/-- Witness of C6: the limits 1001 and 1000. -/
theorem accountLogList_limit_witness :
    ((AccountLogList (stubClient ([], none)) 1 7 0 0 [] 0 0 1 1001).err = some 1001 ∧
      (AccountLogList (stubClient ([], none)) 1 7 0 0 [] 0 0 1 1001).calls = []) ∧
    (∃ c, (AccountLogList (stubClient ([], none)) 1 7 0 0 [] 0 0 1 1000).calls = [c] ∧
      c.method = lit "accountLogList" ∧
      c.params.get (lit "limit") = some (Itoa 1000) ∧
      ParseInt (Itoa 1000) = some 1000) :=
  ⟨(accountLogList_limit (stubClient ([], none)) 1 7 0 0 [] 0 0 1 1001 (by decide) (by decide)
      (by decide) (by decide)).1 (Or.inl (by decide)),
   (accountLogList_limit (stubClient ([], none)) 1 7 0 0 [] 0 0 1 1000 (by decide) (by decide)
      (by decide) (by decide)).2 ⟨by decide, by decide⟩⟩

/-- C7: OperateAmount with opType ≤ 0 returns `ErrInvalidParams` without a transport
call; with orgId, accountId, opType and bsType positive and a non-empty amount it makes
one transport call whose "amount" parameter is the caller's amount unchanged, and when
that call succeeds it returns no error, whatever the response bytes. -/
theorem operateAmount_opType {Err : Type} (client : Client Err)
    (orgId accountId opType bsType allowNegative : Int)
    (amount detail ext callback : GoString) :
    (opType ≤ 0 →
      (OperateAmount client orgId accountId opType bsType allowNegative amount detail ext
        callback).err = some client.ErrInvalidParams ∧
      (OperateAmount client orgId accountId opType bsType allowNegative amount detail ext
        callback).calls = []) ∧
    (0 < orgId → 0 < accountId → 0 < opType → 0 < bsType → amount ≠ [] →
      ∃ c, (OperateAmount client orgId accountId opType bsType allowNegative amount detail ext
          callback).calls = [c] ∧
        c.method = lit "operateAmount" ∧
        c.params.get (lit "amount") = some amount ∧
        ((client.respond c).2 = none →
          (OperateAmount client orgId accountId opType bsType allowNegative amount detail ext
            callback).err = none)) := by
  constructor
  · intro h
    have := OperateAmount_rejected client orgId accountId opType bsType allowNegative amount
      detail ext callback (Or.inr (Or.inr (Or.inl h)))
    exact ⟨this.1, this.2.1⟩
  · intro h1 h2 h3 h4 h5
    obtain ⟨c, hc, hh⟩ := OperateAmount_accepted client orgId accountId opType bsType
      allowNegative amount detail ext callback h1 h2 h3 h4 h5
    exact ⟨c, hc, hh.2.2.1, hh.2.2.2.2.2.2.2.2.1, hh.2.2.2.2.2.2.2.2.2.2.2.2.2.1⟩

/-- Witness of C7: opType 0, and opType 5 (unfreeze) on a transport that succeeds with
a body that is not JSON. -/
theorem operateAmount_opType_witness :
    ((OperateAmount (stubClient (lit "ok", none)) 1 3 0 1 0 (lit "1.50") [] [] []).err
        = some 1001 ∧
      (OperateAmount (stubClient (lit "ok", none)) 1 3 0 1 0 (lit "1.50") [] [] []).calls
        = []) ∧
    (OperateAmount (stubClient (lit "ok", none)) 1 3 OP_TYPE_UN_FREEZE 1 0 (lit "1.50") [] []
      []).err = none :=
  ⟨(operateAmount_opType (stubClient (lit "ok", none)) 1 3 0 1 0 (lit "1.50") [] [] []).1
      (by decide),
   match (operateAmount_opType (stubClient (lit "ok", none)) 1 3 OP_TYPE_UN_FREEZE 1 0
      (lit "1.50") [] [] []).2 (by decide) (by decide) (by decide) (by decide) (by decide) with
    | ⟨_, _, _, _, h⟩ => h rfl⟩

/-- C8: AccountInfo with orgId > 0 and a non-empty userIds list makes one transport
call; when the call succeeds with bytes that do not decode as a JSON array of Account,
as the empty body does not, it returns a nil list with the fixed error `ErrServiceBusy`
and logs exactly one record, whose tag contains "AccountInfo". -/
theorem accountInfo_decode_failure {Err : Type} (client : Client Err) (orgId : Int)
    (userIds : Slice Int) (currency : GoString) (h1 : 0 < orgId) (h2 : 0 < len userIds) :
    (∃ c, (AccountInfo client orgId userIds currency).calls = [c] ∧
      ((client.respond c).2 = none → unmarshalAccounts (client.respond c).1 = none →
        (AccountInfo client orgId userIds currency).value = none ∧
        (AccountInfo client orgId userIds currency).err = some client.ErrServiceBusy ∧
        ∃ r, (AccountInfo client orgId userIds currency).logs = [r] ∧
          r.tag = lit "baseServerSdk_AccountInfo" ∧
          List.IsInfix (lit "AccountInfo") r.tag)) ∧
    unmarshalAccounts [] = none := by
  refine ⟨?_, by decide⟩
  obtain ⟨c, hc, hh⟩ := AccountInfo_accepted client orgId userIds currency h1 h2
  refine ⟨c, hc, fun hr hu => ?_⟩
  have := hh.2.2.2.2.2.2.2.1 hr hu
  exact ⟨this.1, this.2.1, _, this.2.2, rfl, ⟨lit "baseServerSdk_", [], rfl⟩⟩

/-- Witness of C8: AccountInfo on a transport that succeeds with an empty body. -/
theorem accountInfo_decode_failure_witness :
    (AccountInfo (stubClient ([], none)) 1 (some [7]) (lit "BTC")).value = none ∧
    (AccountInfo (stubClient ([], none)) 1 (some [7]) (lit "BTC")).err = some 1000 ∧
    ∃ r, (AccountInfo (stubClient ([], none)) 1 (some [7]) (lit "BTC")).logs = [r] ∧
      r.tag = lit "baseServerSdk_AccountInfo" ∧ List.IsInfix (lit "AccountInfo") r.tag :=
  match (accountInfo_decode_failure (stubClient ([], none)) 1 (some [7]) (lit "BTC")
      (by decide) (by decide)).1 with
  | ⟨_, _, h⟩ => h rfl rfl

set_option maxRecDepth 100000 in
/-- Counterexample to C9 as stated: a task detail whose currency is the single byte
0xFF, which is not UTF-8, is sent under "detail" as JSON that decodes to a detail whose
currency is U+FFFD, not to the original. -/
theorem batch_detail_not_read_back :
    (BatchOperateAmount (stubClient ([], none)) 1 0
        (some [some ⟨1, 2, 3, 7, [0xFF], 0, lit "1.5", [], []⟩]) none).calls.map
        (fun c => (c.params.get (lit "detail")).bind unmarshalTaskDetails)
      = [some (some [some ⟨1, 2, 3, 7, [0xEF, 0xBF, 0xBD], 0, lit "1.5", [], []⟩])] ∧
    some (some [some (⟨1, 2, 3, 7, [0xEF, 0xBF, 0xBD], 0, lit "1.5", [], []⟩ : TaskDetail)])
      ≠ some (some [some ⟨1, 2, 3, 7, [0xFF], 0, lit "1.5", [], []⟩]) := by
  decide

/-- C9, amended: for orgId > 0 and a non-empty list of details BatchOperateAmount makes
one transport call whose "detail" and "callback" parameters are each valid JSON; when
the strings of the details are valid UTF-8, decoding "detail" as `[]*TaskDetail` gives
the details back, and when the strings of the callback are valid UTF-8, decoding
"callback" as `*TaskCallBack` gives the callback back. -/
theorem batch_round_trip {Err : Type} (client : Client Err) (orgId isAsync : Int)
    (details : List (Option TaskDetail)) (callback : Option TaskCallBack)
    (h1 : 0 < orgId) (h2 : details ≠ []) :
    ∃ c dv cv, (BatchOperateAmount client orgId isAsync (some details) callback).calls = [c] ∧
      c.params.get (lit "detail") = some dv ∧ c.params.get (lit "callback") = some cv ∧
      Valid dv = true ∧ Valid cv = true ∧
      ((∀ d, some d ∈ details → d.InRange ∧ d.ValidUTF8) →
        unmarshalTaskDetails dv = some (some details)) ∧
      ((∀ x, callback = some x → x.IsMap ∧ x.ValidUTF8) →
        unmarshalTaskCallBack cv = some callback) := by
  obtain ⟨c, hcall, hh⟩ := BatchOperateAmount_accepted client orgId isAsync (some details)
    callback h1 (by
      cases details with
      | nil => exact absurd rfl h2
      | cons a t => simp [len])
  refine ⟨c, _, _, hcall, hh.2.2.2.2.2.1, hh.2.2.2.2.2.2.1, ?_, ?_, ?_, ?_⟩
  · unfold Valid
    rw [parseJSON_marshalTaskDetails]
    rfl
  · unfold Valid
    rw [parseJSON_marshalTaskCallBack]
    rfl
  · intro hv
    apply unmarshal_marshalTaskDetails
    intro l hl d hmem
    cases hl
    exact hv d hmem
  · intro hv
    exact unmarshal_marshalTaskCallBack callback hv

set_option maxRecDepth 100000 in
/-- Witness of C9, amended: two task details and a callback with two data entries are
read back from the parameters sent. -/
theorem batch_round_trip_witness :
    ∃ c dv cv, (BatchOperateAmount (stubClient ([], none)) 1 1
        (some [some ⟨1, 2, 3, 7, lit "BTC", 0, lit "1.5", lit "a<b", []⟩,
          some ⟨5, 2, 4, 8, lit "ETH", 1, lit "-2", [], [0xC3, 0xA9]⟩])
        (some ⟨lit "http://cb?x=1&y=2", some [(lit "a", lit "1"), (lit "b", [])]⟩)).calls = [c] ∧
      c.params.get (lit "detail") = some dv ∧ c.params.get (lit "callback") = some cv ∧
      Valid dv = true ∧ Valid cv = true ∧
      unmarshalTaskDetails dv
        = some (some [some ⟨1, 2, 3, 7, lit "BTC", 0, lit "1.5", lit "a<b", []⟩,
            some ⟨5, 2, 4, 8, lit "ETH", 1, lit "-2", [], [0xC3, 0xA9]⟩]) ∧
      unmarshalTaskCallBack cv
        = some (some ⟨lit "http://cb?x=1&y=2", some [(lit "a", lit "1"), (lit "b", [])]⟩) :=
  match batch_round_trip (stubClient ([], none)) 1 1
      [some ⟨1, 2, 3, 7, lit "BTC", 0, lit "1.5", lit "a<b", []⟩,
        some ⟨5, 2, 4, 8, lit "ETH", 1, lit "-2", [], [0xC3, 0xA9]⟩]
      (some ⟨lit "http://cb?x=1&y=2", some [(lit "a", lit "1"), (lit "b", [])]⟩)
      (by decide) (by decide) with
  | ⟨c, dv, cv, k1, k2, k3, k4, k5, k6, k7⟩ =>
    ⟨c, dv, cv, k1, k2, k3, k4, k5,
      k6 (by
        intro d hd
        simp only [List.mem_cons, Option.some.injEq, List.mem_singleton, List.not_mem_nil,
          or_false] at hd
        rcases hd with rfl | rfl <;>
          exact ⟨by unfold TaskDetail.InRange; decide, by unfold TaskDetail.ValidUTF8; decide⟩),
      k7 (by
        intro x hx
        cases hx
        refine ⟨?_, by decide, ?_⟩
        · intro m hm
          cases hm
          decide
        · intro m hm
          cases hm
          decide)⟩

/-- C10: CreateAccount makes a transport call, exactly one and of method "createAccount",
if and only if orgId > 0, userId > 0 and the currency list is not empty; otherwise, for an
empty currency list in particular, it returns a nil list and `ErrInvalidParams`. -/
theorem createAccount_call_iff_valid {Err : Type} (client : Client Err) (orgId userId : Int)
    (currency : Slice GoString) :
    (len currency = 0 →
      (CreateAccount client orgId userId currency).value = none ∧
      (CreateAccount client orgId userId currency).err = some client.ErrInvalidParams) ∧
    ((CreateAccount client orgId userId currency).calls ≠ [] ↔
      (0 < orgId ∧ 0 < userId ∧ 0 < len currency)) ∧
    (0 < orgId ∧ 0 < userId ∧ 0 < len currency →
      ∃ c, (CreateAccount client orgId userId currency).calls = [c] ∧
        c.method = lit "createAccount") ∧
    (¬ (0 < orgId ∧ 0 < userId ∧ 0 < len currency) →
      (CreateAccount client orgId userId currency).value = none ∧
      (CreateAccount client orgId userId currency).err = some client.ErrInvalidParams ∧
      (CreateAccount client orgId userId currency).calls = []) := by
  have hrej : ¬ (0 < orgId ∧ 0 < userId ∧ 0 < len currency) →
      (CreateAccount client orgId userId currency).value = none ∧
      (CreateAccount client orgId userId currency).err = some client.ErrInvalidParams ∧
      (CreateAccount client orgId userId currency).calls = [] := by
    intro h
    have := CreateAccount_rejected client orgId userId currency (by omega)
    exact ⟨this.2.2.2, this.1, this.2.1⟩
  have hacc : 0 < orgId ∧ 0 < userId ∧ 0 < len currency →
      ∃ c, (CreateAccount client orgId userId currency).calls = [c] ∧
        c.method = lit "createAccount" := by
    intro h
    obtain ⟨c, hc, hh⟩ := CreateAccount_accepted client orgId userId currency h.1 h.2.1 h.2.2
    exact ⟨c, hc, hh.2.2.1⟩
  refine ⟨fun h => ?_, ⟨fun h => ?_, fun h => ?_⟩, hacc, hrej⟩
  · have := hrej (by omega)
    exact ⟨this.1, this.2.1⟩
  · by_contra hn
    exact h (hrej hn).2.2
  · obtain ⟨c, hc, _⟩ := hacc h
    rw [hc]
    simp

/-- Witness of C10: an empty currency list, and one currency. -/
theorem createAccount_call_iff_valid_witness :
    ((CreateAccount (stubClient ([], none)) 1 7 (some [])).value = none ∧
      (CreateAccount (stubClient ([], none)) 1 7 (some [])).err = some 1001) ∧
    (∃ c, (CreateAccount (stubClient ([], none)) 1 7 (some [lit "BTC"])).calls = [c] ∧
      c.method = lit "createAccount") :=
  ⟨(createAccount_call_iff_valid (stubClient ([], none)) 1 7 (some [])).1 (by decide),
   (createAccount_call_iff_valid (stubClient ([], none)) 1 7 (some [lit "BTC"])).2.2.1
     ⟨by decide, by decide, by decide⟩⟩

end BaseServerAccount
